import Mathlib

/-!
Verification development for the granola-ingest meeting-data ingestion
pipeline.  The TypeScript sources are shallowly embedded: the SQLite store
is a record of row lists, the in-memory fingerprint store is an association
list, machine integers are `Nat` reduced `% 2^64`, and the asynchronous
per-document work of a chunk is serialised in snapshot order (the single
logical ingestion path of the program).  The xxhash64 digest used by
`HashUtil.getHash` (xxhash-wasm `h64`, seed 0, UTF-8 input) is implemented
bit-faithfully so that fingerprint comparisons evaluate on concrete inputs.
-/

namespace GranolaIngest

/-! ## Byte-level helpers and the xxhash64 digest (src/utils/hash.ts) -/

/-- UTF-8 encoding of a single character, as its list of bytes. -/
def utf8Bytes (c : Char) : List Nat :=
  let n := c.toNat
  if n < 0x80 then [n]
  else if n < 0x800 then
    [0xC0 ||| (n >>> 6), 0x80 ||| (n &&& 0x3F)]
  else if n < 0x10000 then
    [0xE0 ||| (n >>> 12), 0x80 ||| ((n >>> 6) &&& 0x3F), 0x80 ||| (n &&& 0x3F)]
  else
    [0xF0 ||| (n >>> 18), 0x80 ||| ((n >>> 12) &&& 0x3F),
     0x80 ||| ((n >>> 6) &&& 0x3F), 0x80 ||| (n &&& 0x3F)]

/-- UTF-8 bytes of a string (the encoding xxhash-wasm applies to its input). -/
def strBytes (s : String) : List Nat := (s.toList.map utf8Bytes).flatten

/-- Addition modulo 2^64. -/
def add64 (a b : Nat) : Nat := (a + b) % 2 ^ 64

/-- Multiplication modulo 2^64. -/
def mul64 (a b : Nat) : Nat := (a * b) % 2 ^ 64

/-- Left rotation of a 64-bit value. -/
def rotl64 (x r : Nat) : Nat := ((x <<< r) ||| (x >>> (64 - r))) % 2 ^ 64

/-- Little-endian value of a byte list. -/
def leNat : List Nat → Nat
  | [] => 0
  | b :: bs => b + 256 * leNat bs

def xxhP1 : Nat := 11400714785074694791
def xxhP2 : Nat := 14029467366897019727
def xxhP3 : Nat := 1609587929392839161
def xxhP4 : Nat := 9650029242287828579
def xxhP5 : Nat := 2870177450012600261

/-- One accumulation round of XXH64. -/
def xxhRound (acc lane : Nat) : Nat :=
  mul64 (rotl64 (add64 acc (mul64 lane xxhP2)) 31) xxhP1

/-- Merge one lane into the converged accumulator. -/
def xxhMerge (acc v : Nat) : Nat :=
  add64 (mul64 (acc ^^^ xxhRound 0 v) xxhP1) xxhP4

/-- Processes `k` 32-byte stripes, returning lanes and the remaining bytes. -/
def xxhStripes : Nat → List Nat → Nat × Nat × Nat × Nat → (Nat × Nat × Nat × Nat) × List Nat
  | 0, bs, vs => (vs, bs)
  | k + 1, bs, (v1, v2, v3, v4) =>
    xxhStripes k (bs.drop 32)
      (xxhRound v1 (leNat (bs.take 8)),
       xxhRound v2 (leNat ((bs.drop 8).take 8)),
       xxhRound v3 (leNat ((bs.drop 16).take 8)),
       xxhRound v4 (leNat ((bs.drop 24).take 8)))

/-- Processes `k` 8-byte tail blocks. -/
def xxhTail8 : Nat → List Nat → Nat → Nat × List Nat
  | 0, bs, h => (h, bs)
  | k + 1, bs, h =>
    xxhTail8 k (bs.drop 8)
      (add64 (mul64 (rotl64 (h ^^^ xxhRound 0 (leNat (bs.take 8))) 27) xxhP1) xxhP4)

/-- Final avalanche mix of XXH64. -/
def xxhAvalanche (h0 : Nat) : Nat :=
  let h1 := mul64 (h0 ^^^ (h0 >>> 33)) xxhP2
  let h2 := mul64 (h1 ^^^ (h1 >>> 29)) xxhP3
  h2 ^^^ (h2 >>> 32)

/-- XXH64 of a byte sequence with the given seed. -/
def xxh64 (seed : Nat) (input : List Nat) : Nat :=
  let len := input.length
  let (acc0, rest) :=
    if 32 ≤ len then
      let ((v1, v2, v3, v4), rest) :=
        xxhStripes (len / 32) input
          (add64 (add64 seed xxhP1) xxhP2, add64 seed xxhP2, seed % 2 ^ 64,
           (seed + 2 ^ 64 - xxhP1) % 2 ^ 64)
      let h := (rotl64 v1 1 + rotl64 v2 7 + rotl64 v3 12 + rotl64 v4 18) % 2 ^ 64
      (xxhMerge (xxhMerge (xxhMerge (xxhMerge h v1) v2) v3) v4, rest)
    else
      (add64 seed xxhP5, input)
  let h0 := add64 acc0 len
  let (h1, rest1) := xxhTail8 (rest.length / 8) rest h0
  let (h2, rest2) :=
    if 4 ≤ rest1.length then
      (add64 (mul64 (rotl64 (h1 ^^^ mul64 (leNat (rest1.take 4)) xxhP1) 23) xxhP2) xxhP3,
       rest1.drop 4)
    else (h1, rest1)
  let h3 := rest2.foldl (fun h b => mul64 (rotl64 (h ^^^ mul64 b xxhP5) 11) xxhP1) h2
  xxhAvalanche h3

/-- Lowercase hexadecimal digit. -/
def hexDigit (n : Nat) : Char :=
  if n < 10 then Char.ofNat (48 + n) else Char.ofNat (87 + n)

/-- Hex digits of `n` (fuel-driven, most significant first). -/
def hexAux : Nat → Nat → List Char
  | 0, _ => []
  | _ + 1, 0 => []
  | f + 1, n => hexAux f (n / 16) ++ [hexDigit (n % 16)]

/-- JavaScript `BigInt.prototype.toString(16)`: lowercase, no padding. -/
def natHex (n : Nat) : String :=
  if n = 0 then "0" else ⟨hexAux 64 n⟩

namespace HashUtil

/-- Embeds `HashUtil.getHash` (src/utils/hash.ts): xxhash-wasm `h64` with
seed 0 over the UTF-8 bytes of the input, rendered as lowercase hex. -/
def getHash (data : String) : String := natHex (xxh64 0 (strBytes data))

end HashUtil

/-! ## Parsed JSON values

`Json` models the output of `JSON.parse`.  Object fields keep their
insertion (parse) order, exactly as JavaScript objects do; numbers are
modelled as integers (no claim depends on fractional payloads). -/

inductive Json where
  | null : Json
  | bool (b : Bool) : Json
  | num (n : Int) : Json
  | str (s : String) : Json
  | arr (elems : List Json) : Json
  | obj (fields : List (String × Json)) : Json

instance : Inhabited Json := ⟨Json.null⟩

/-- Association-list lookup, first match (JSON.parse never produces
duplicate keys in an object it returns). -/
def lookupA {α : Type} : List (String × α) → String → Option α
  | [], _ => none
  | (k, v) :: rest, key => if k = key then some v else lookupA rest key

/-- Association-list update in place, appending when the key is new —
the semantics of JavaScript property assignment on an object. -/
def setA {α : Type} : List (String × α) → String → α → List (String × α)
  | [], key, v => [(key, v)]
  | (k, w) :: rest, key, v =>
    if k = key then (key, v) :: rest else (k, w) :: setA rest key v

/-- JavaScript truthiness of a parsed JSON value. -/
def jsTruthy : Json → Bool
  | .null => false
  | .bool b => b
  | .num n => decide (n ≠ 0)
  | .str s => decide (s ≠ "")
  | .arr _ => true
  | .obj _ => true

/-- Truthiness of a possibly-absent value (`undefined` is falsy). -/
def jsTruthyOpt : Option Json → Bool
  | none => false
  | some v => jsTruthy v

/-- Property read `v[k]`.  Non-object receivers yield `undefined`; reading
from `null` throws in JavaScript, and every ingestion call site turns that
throw into the same error path a falsy read takes. -/
def getField : Json → String → Option Json
  | .obj fs, k => lookupA fs k
  | _, _ => none

/-- JSON string escaping as performed by `JSON.stringify`. -/
def escChar (c : Char) : List Char :=
  if c = '"' then ['\\', '"']
  else if c = '\\' then ['\\', '\\']
  else if c = Char.ofNat 8 then ['\\', 'b']
  else if c = Char.ofNat 9 then ['\\', 't']
  else if c = Char.ofNat 10 then ['\\', 'n']
  else if c = Char.ofNat 12 then ['\\', 'f']
  else if c = Char.ofNat 13 then ['\\', 'r']
  else if c.toNat < 32 then
    ['\\', 'u', '0', '0', hexDigit (c.toNat / 16), hexDigit (c.toNat % 16)]
  else [c]

/-- Escaped body of a JSON string literal. -/
def escString (s : String) : String := ⟨(s.toList.map escChar).flatten⟩

mutual

/-- Embeds `JSON.stringify` on parsed values: fields are emitted in the
object's insertion order, with no whitespace. -/
def jsonStringify : Json → String
  | .null => "null"
  | .bool true => "true"
  | .bool false => "false"
  | .num n => toString n
  | .str s => "\"" ++ escString s ++ "\""
  | .arr es => "[" ++ stringifyElems es ++ "]"
  | .obj fs => "\x7b" ++ stringifyFields fs ++ "\x7d"

/-- Comma-separated serialisation of array elements. -/
def stringifyElems : List Json → String
  | [] => ""
  | [e] => jsonStringify e
  | e :: rest => jsonStringify e ++ "," ++ stringifyElems rest

/-- Comma-separated serialisation of object fields, insertion order. -/
def stringifyFields : List (String × Json) → String
  | [] => ""
  | [(k, v)] => "\"" ++ escString k ++ "\":" ++ jsonStringify v
  | (k, v) :: rest =>
    "\"" ++ escString k ++ "\":" ++ jsonStringify v ++ "," ++ stringifyFields rest

end

mutual

/-- String coercion a JavaScript `JSON.parse(x)` applies to a non-string
argument before parsing it. -/
def jsToString : Json → String
  | .null => "null"
  | .bool true => "true"
  | .bool false => "false"
  | .num n => toString n
  | .str s => s
  | .arr es => jsToStringElems es
  | .obj _ => "[object Object]"

/-- Array elements under `Array.prototype.toString` (joined with commas). -/
def jsToStringElems : List Json → String
  | [] => ""
  | [e] => jsToStringElem e
  | e :: rest => jsToStringElem e ++ "," ++ jsToStringElems rest

/-- One array element: `null` renders empty inside a joined array. -/
def jsToStringElem : Json → String
  | .null => ""
  | .bool true => "true"
  | .bool false => "false"
  | .num n => toString n
  | .str s => s
  | .arr es => jsToStringElems es
  | .obj _ => "[object Object]"

end

/-! ## Entity types (src/models/types.ts) -/

structure CalendarAttendee where
  email : String
  displayName : Option String
  organizer : Option Bool
  responseStatus : Option String
deriving DecidableEq

structure CalendarEvent where
  id : String
  document_id : Option String
  summary : String
  description : Option String
  start_time : String
  end_time : String
  timezone : String
  status : String
  calendar_id : String
  html_link : String
  hangout_link : Option String
  location : Option String
  organizer_email : String
  created_at : String
  updated_at : String
  attendees : Option (List CalendarAttendee)
deriving DecidableEq

structure Document where
  id : String
  title : String
  created_at : String
  updated_at : String
  deleted_at : Option String
  user_id : String
  notes_markdown : String
  notes_plain : String
  transcribe : Bool
  public : Bool
  type : Option String
  valid_meeting : Bool
  has_shareable_link : Bool
  creation_source : String
  subscription_plan_id : Option String
  privacy_mode_enabled : Bool
  google_calendar_event : Option CalendarEvent
deriving DecidableEq

structure TranscriptEntry where
  id : String
  text : String
  source : String
  speaker : String
  start_timestamp : String
  end_timestamp : String
  is_final : Bool
  sequence_number : Int
deriving DecidableEq

structure Person where
  id : String
  document_id : String
  email : String
  name : Option String
  role : Option String
  response_status : Option String
  avatar_url : Option String
  company_name : Option String
  job_title : Option String
deriving DecidableEq

structure PanelTemplate where
  id : String
  category : Option String
  title : Option String
  description : Option String
  color : Option String
  symbol : Option String
  is_granola : Bool
  created_at : Option String
  updated_at : Option String
  deleted_at : Option String
  shared_with : Option String
  user_types : Json

structure TemplateSection where
  id : String
  template_id : String
  heading : Option String
  section_description : Option String
  sequence_number : Option Int

structure DocumentPanel where
  id : String
  document_id : String
  template_id : String
  content : Json
  created_at : Option String
  updated_at : Option String
  deleted_at : Option String

/-! ## Serialisation of typed entities

`JSON.stringify` applied to a snapshot entity serialises the object the
parser produced.  The typed embedding fixes the field order to the order
declared in src/models/types.ts; fields the interfaces mark optional are
omitted when absent, nullable fields are emitted as `null`.  (Sensitivity
of the fingerprint to a *different* field order is treated separately, on
`Json` values directly.) -/

/-- Emits an optional field, omitted when the value is `undefined`. -/
def optField (k : String) : Option Json → List (String × Json)
  | some v => [(k, v)]
  | none => []

/-- Nullable string field value. -/
def strOrNull : Option String → Json
  | some s => Json.str s
  | none => Json.null

/-- Serialised form of a calendar attendee. -/
def attendeeJson (a : CalendarAttendee) : Json :=
  Json.obj ([("email", Json.str a.email)]
    ++ optField "displayName" (a.displayName.map Json.str)
    ++ optField "organizer" (a.organizer.map Json.bool)
    ++ optField "responseStatus" (a.responseStatus.map Json.str))

/-- Serialised form of a calendar event. -/
def eventJson (e : CalendarEvent) : Json :=
  Json.obj ([("id", Json.str e.id)]
    ++ optField "document_id" (e.document_id.map Json.str)
    ++ [("summary", Json.str e.summary),
        ("description", strOrNull e.description),
        ("start_time", Json.str e.start_time),
        ("end_time", Json.str e.end_time),
        ("timezone", Json.str e.timezone),
        ("status", Json.str e.status),
        ("calendar_id", Json.str e.calendar_id),
        ("html_link", Json.str e.html_link),
        ("hangout_link", strOrNull e.hangout_link),
        ("location", strOrNull e.location),
        ("organizer_email", Json.str e.organizer_email),
        ("created_at", Json.str e.created_at),
        ("updated_at", Json.str e.updated_at)]
    ++ optField "attendees" (e.attendees.map fun l => Json.arr (l.map attendeeJson)))

/-- Serialised form of a document. -/
def docJson (d : Document) : Json :=
  Json.obj ([("id", Json.str d.id),
        ("title", Json.str d.title),
        ("created_at", Json.str d.created_at),
        ("updated_at", Json.str d.updated_at),
        ("deleted_at", strOrNull d.deleted_at),
        ("user_id", Json.str d.user_id),
        ("notes_markdown", Json.str d.notes_markdown),
        ("notes_plain", Json.str d.notes_plain),
        ("transcribe", Json.bool d.transcribe),
        ("public", Json.bool d.public),
        ("type", strOrNull d.type),
        ("valid_meeting", Json.bool d.valid_meeting),
        ("has_shareable_link", Json.bool d.has_shareable_link),
        ("creation_source", Json.str d.creation_source),
        ("subscription_plan_id", strOrNull d.subscription_plan_id),
        ("privacy_mode_enabled", Json.bool d.privacy_mode_enabled)]
    ++ optField "google_calendar_event" (d.google_calendar_event.map eventJson))

/-- Serialised form of a transcript entry. -/
def transcriptJson (t : TranscriptEntry) : Json :=
  Json.obj [("id", Json.str t.id),
    ("text", Json.str t.text),
    ("source", Json.str t.source),
    ("speaker", Json.str t.speaker),
    ("start_timestamp", Json.str t.start_timestamp),
    ("end_timestamp", Json.str t.end_timestamp),
    ("is_final", Json.bool t.is_final),
    ("sequence_number", Json.num t.sequence_number)]

/-- Serialised form of a person record (all nine fields are set when the
pipeline constructs one from an attendee). -/
def personJson (p : Person) : Json :=
  Json.obj [("id", Json.str p.id),
    ("document_id", Json.str p.document_id),
    ("email", Json.str p.email),
    ("name", strOrNull p.name),
    ("role", strOrNull p.role),
    ("response_status", strOrNull p.response_status),
    ("avatar_url", strOrNull p.avatar_url),
    ("company_name", strOrNull p.company_name),
    ("job_title", strOrNull p.job_title)]

/-! ## StateTrackingService (src/services/StateTrackingService.ts) -/

/-- Fingerprint of a document: `HashUtil.getHash(JSON.stringify(doc))`. -/
def docFingerprint (d : Document) : String :=
  HashUtil.getHash (jsonStringify (docJson d))

/-- Fingerprint of a calendar event. -/
def eventFingerprint (e : CalendarEvent) : String :=
  HashUtil.getHash (jsonStringify (eventJson e))

/-- Fingerprint of a transcript entry. -/
def transcriptFingerprint (t : TranscriptEntry) : String :=
  HashUtil.getHash (jsonStringify (transcriptJson t))

/-- Fingerprint of a person record. -/
def personFingerprint (p : Person) : String :=
  HashUtil.getHash (jsonStringify (personJson p))

/-- In-memory fingerprint store of `StateTrackingService`. -/
structure LastKnownState where
  documentHashes : List (String × String)
  calendarHashes : List (String × String)
  transcriptHashes : List (String × List (String × String))
  personHashes : List (String × List (String × String))
deriving DecidableEq

/-- Empty fingerprint store (a freshly constructed service). -/
def LastKnownState.empty : LastKnownState :=
  { documentHashes := [], calendarHashes := [], transcriptHashes := [], personHashes := [] }

namespace StateTrackingService

/-- Embeds `hasDocumentChanged`: compares the fingerprint of the incoming
document with the stored one under `doc.id`, storing the new fingerprint
exactly when they differ. -/
def hasDocumentChanged (doc : Document) (st : LastKnownState) : Bool × LastKnownState :=
  let hash := docFingerprint doc
  if lookupA st.documentHashes doc.id = some hash then (false, st)
  else (true, { st with documentHashes := setA st.documentHashes doc.id hash })

/-- Embeds `hasCalendarEventChanged` (keyed by the owning document id). -/
def hasCalendarEventChanged (docId : String) (event : CalendarEvent)
    (st : LastKnownState) : Bool × LastKnownState :=
  let hash := eventFingerprint event
  if lookupA st.calendarHashes docId = some hash then (false, st)
  else (true, { st with calendarHashes := setA st.calendarHashes docId hash })

/-- Embeds `hasTranscriptChanged` (keyed by document id, then entry id). -/
def hasTranscriptChanged (docId : String) (entry : TranscriptEntry)
    (st : LastKnownState) : Bool × LastKnownState :=
  let hash := transcriptFingerprint entry
  let docTranscripts := (lookupA st.transcriptHashes docId).getD []
  if lookupA docTranscripts entry.id = some hash then (false, st)
  else
    (true,
     { st with
       transcriptHashes := setA st.transcriptHashes docId (setA docTranscripts entry.id hash) })

/-- Embeds `hasPersonChanged` (keyed by document id, then person id). -/
def hasPersonChanged (docId : String) (person : Person)
    (st : LastKnownState) : Bool × LastKnownState :=
  let hash := personFingerprint person
  let docPeople := (lookupA st.personHashes docId).getD []
  if lookupA docPeople person.id = some hash then (false, st)
  else
    (true,
     { st with
       personHashes := setA st.personHashes docId (setA docPeople person.id hash) })

end StateTrackingService

/-! ## The relational store

Each SQLite table is a list of rows in insertion order; `INSERT ... ON
CONFLICT (id) DO UPDATE` either appends or patches the conflicting row in
place.  Boolean columns hold the bound booleans; timestamps produced by
`CURRENT_TIMESTAMP` are modelled by a monotone clock. -/

/-- Row of the `documents` table. -/
structure DocumentRow where
  id : String
  title : String
  created_at : String
  updated_at : String
  deleted_at : Option String
  user_id : String
  notes_markdown : String
  notes_plain : String
  transcribe : Bool
  public : Bool
  type : Option String
  valid_meeting : Bool
  has_shareable_link : Bool
  creation_source : String
  subscription_plan_id : Option String
  privacy_mode_enabled : Bool
deriving DecidableEq

/-- Column values a document contributes to the `documents` table. -/
def Document.toRow (d : Document) : DocumentRow :=
  { id := d.id, title := d.title, created_at := d.created_at, updated_at := d.updated_at,
    deleted_at := d.deleted_at, user_id := d.user_id, notes_markdown := d.notes_markdown,
    notes_plain := d.notes_plain, transcribe := d.transcribe, public := d.public,
    type := d.type, valid_meeting := d.valid_meeting,
    has_shareable_link := d.has_shareable_link, creation_source := d.creation_source,
    subscription_plan_id := d.subscription_plan_id,
    privacy_mode_enabled := d.privacy_mode_enabled }

/-- Row of the `calendar_events` table. -/
structure CalendarEventRow where
  id : String
  document_id : Option String
  summary : String
  description : Option String
  start_time : String
  end_time : String
  timezone : String
  status : String
  calendar_id : String
  html_link : String
  hangout_link : Option String
  location : Option String
  organizer_email : String
  created_at : String
  updated_at : String
deriving DecidableEq

/-- Column values a calendar event contributes to `calendar_events`. -/
def CalendarEvent.toRow (e : CalendarEvent) : CalendarEventRow :=
  { id := e.id, document_id := e.document_id, summary := e.summary,
    description := e.description, start_time := e.start_time, end_time := e.end_time,
    timezone := e.timezone, status := e.status, calendar_id := e.calendar_id,
    html_link := e.html_link, hangout_link := e.hangout_link, location := e.location,
    organizer_email := e.organizer_email, created_at := e.created_at,
    updated_at := e.updated_at }

/-- Row of the `transcript_entries` table. -/
structure TranscriptRow where
  id : String
  document_id : String
  text : String
  source : String
  speaker : String
  start_timestamp : String
  end_timestamp : String
  is_final : Bool
  sequence_number : Int
deriving DecidableEq

/-- Row of the `panel_templates` table (`user_types` is stored as the
serialised JSON string the service binds). -/
structure PanelTemplateRow where
  id : String
  category : Option String
  title : Option String
  description : Option String
  color : Option String
  symbol : Option String
  is_granola : Bool
  created_at : Option String
  updated_at : Option String
  deleted_at : Option String
  shared_with : Option String
  user_types : String
deriving DecidableEq

/-- Row of the `template_sections` table (timestamps come from
`CURRENT_TIMESTAMP`). -/
structure TemplateSectionRow where
  id : String
  template_id : String
  heading : Option String
  section_description : Option String
  sequence_number : Option Int
  created_at : Nat
  updated_at : Nat
deriving DecidableEq

/-- Row of the `document_panels` table (`content` stored serialised). -/
structure DocumentPanelRow where
  id : String
  document_id : String
  template_id : String
  content : String
  created_at : Option String
  updated_at : Option String
  deleted_at : Option String
deriving DecidableEq

/-- Row of the append-only `historical_documents` table (src/History.ts). -/
structure HistoricalDocumentRow where
  id : String
  document_id : String
  title : String
  created_at : String
  updated_at : String
  deleted_at : Option String
  user_id : String
  notes_markdown : String
  notes_plain : String
  transcribe : Bool
  public : Bool
  type : Option String
  valid_meeting : Bool
  has_shareable_link : Bool
  creation_source : String
  subscription_plan_id : Option String
  privacy_mode_enabled : Bool
  history_timestamp : Nat
deriving DecidableEq

/-- Row of the `document_state_hashes` table (src/History.ts). -/
structure DocumentStateHashRow where
  document_id : String
  content_hash : String
  last_change : Nat
  changed_fields : String
deriving DecidableEq

/-- The whole relational store. -/
structure DB where
  documents : List DocumentRow
  calendar_events : List CalendarEventRow
  people : List Person
  transcript_entries : List TranscriptRow
  panel_templates : List PanelTemplateRow
  template_sections : List TemplateSectionRow
  document_panels : List DocumentPanelRow
  historical_documents : List HistoricalDocumentRow
  document_state_hashes : List DocumentStateHashRow
deriving DecidableEq

/-- Freshly initialised store (all tables empty). -/
def DB.empty : DB :=
  { documents := [], calendar_events := [], people := [], transcript_entries := [],
    panel_templates := [], template_sections := [], document_panels := [],
    historical_documents := [], document_state_hashes := [] }

/-! ## Per-entity services (src/services) -/

namespace DocumentService

/-- The `ON CONFLICT (id) DO UPDATE SET` clause of the document upsert:
only these nine columns are overwritten from the incoming row. -/
def mergeRow (old : DocumentRow) (d : Document) : DocumentRow :=
  { old with
    title := d.title, updated_at := d.updated_at, deleted_at := d.deleted_at,
    notes_markdown := d.notes_markdown, notes_plain := d.notes_plain,
    public := d.public, valid_meeting := d.valid_meeting,
    has_shareable_link := d.has_shareable_link,
    privacy_mode_enabled := d.privacy_mode_enabled }

/-- Embeds `DocumentService.upsertDocument` on the `documents` table. -/
def upsertDocument (t : List DocumentRow) (d : Document) : List DocumentRow :=
  if t.any (fun r => r.id == d.id) then
    t.map fun r => if r.id == d.id then mergeRow r d else r
  else t ++ [d.toRow]

end DocumentService

namespace CalendarService

/-- Conflict clause of the calendar-event upsert. -/
def mergeRow (old : CalendarEventRow) (e : CalendarEvent) : CalendarEventRow :=
  { old with
    summary := e.summary, description := e.description, start_time := e.start_time,
    end_time := e.end_time, status := e.status, updated_at := e.updated_at }

/-- Embeds `CalendarService.upsertCalendarEvent`. -/
def upsertCalendarEvent (t : List CalendarEventRow) (e : CalendarEvent) :
    List CalendarEventRow :=
  if t.any (fun r => r.id == e.id) then
    t.map fun r => if r.id == e.id then mergeRow r e else r
  else t ++ [e.toRow]

end CalendarService

namespace PersonService

/-- Conflict clause of the person upsert (every column except the key and
the owning document). -/
def mergeRow (old : Person) (p : Person) : Person :=
  { old with
    email := p.email, name := p.name, role := p.role,
    response_status := p.response_status, avatar_url := p.avatar_url,
    company_name := p.company_name, job_title := p.job_title }

/-- Embeds `PersonService.upsertPerson`. -/
def upsertPerson (t : List Person) (p : Person) : List Person :=
  if t.any (fun r => r.id == p.id) then
    t.map fun r => if r.id == p.id then mergeRow r p else r
  else t ++ [p]

end PersonService

namespace TranscriptService

/-- Conflict clause of the transcript upsert: only `text` and `is_final`. -/
def mergeRow (old : TranscriptRow) (e : TranscriptEntry) : TranscriptRow :=
  { old with text := e.text, is_final := e.is_final }

/-- Column values bound for a transcript entry of document `docId`. -/
def entryRow (docId : String) (e : TranscriptEntry) : TranscriptRow :=
  { id := e.id, document_id := docId, text := e.text, source := e.source,
    speaker := e.speaker, start_timestamp := e.start_timestamp,
    end_timestamp := e.end_timestamp, is_final := e.is_final,
    sequence_number := e.sequence_number }

/-- Embeds `TranscriptService.upsertTranscriptEntry`. -/
def upsertTranscriptEntry (t : List TranscriptRow) (docId : String)
    (e : TranscriptEntry) : List TranscriptRow :=
  if t.any (fun r => r.id == e.id) then
    t.map fun r => if r.id == e.id then mergeRow r e else r
  else t ++ [entryRow docId e]

end TranscriptService

namespace TemplateService

/-- Serialised `user_types` binding: `JSON.stringify(template.user_types || {})`. -/
def userTypesBinding (v : Json) : String :=
  jsonStringify (if jsTruthy v then v else Json.obj [])

/-- Column values bound for a panel template. -/
def templateRow (p : PanelTemplate) : PanelTemplateRow :=
  { id := p.id, category := p.category, title := p.title, description := p.description,
    color := p.color, symbol := p.symbol, is_granola := p.is_granola,
    created_at := p.created_at, updated_at := p.updated_at, deleted_at := p.deleted_at,
    shared_with := p.shared_with, user_types := userTypesBinding p.user_types }

/-- Conflict clause of the panel-template upsert. -/
def mergeTemplateRow (old : PanelTemplateRow) (p : PanelTemplate) : PanelTemplateRow :=
  { old with
    category := p.category, title := p.title, description := p.description,
    color := p.color, symbol := p.symbol, is_granola := p.is_granola,
    updated_at := p.updated_at, deleted_at := p.deleted_at,
    shared_with := p.shared_with, user_types := userTypesBinding p.user_types }

/-- Embeds `TemplateService.upsertPanelTemplate`. -/
def upsertPanelTemplate (t : List PanelTemplateRow) (p : PanelTemplate) :
    List PanelTemplateRow :=
  if t.any (fun r => r.id == p.id) then
    t.map fun r => if r.id == p.id then mergeTemplateRow r p else r
  else t ++ [templateRow p]

/-- Embeds `TemplateService.upsertTemplateSection`; `now` is the value of
`CURRENT_TIMESTAMP` in the executing transaction. -/
def upsertTemplateSection (t : List TemplateSectionRow) (s : TemplateSection)
    (now : Nat) : List TemplateSectionRow :=
  if t.any (fun r => r.id == s.id) then
    t.map fun r =>
      if r.id == s.id then
        { r with
          heading := s.heading, section_description := s.section_description,
          sequence_number := s.sequence_number, updated_at := now }
      else r
  else
    t ++ [{ id := s.id, template_id := s.template_id, heading := s.heading,
            section_description := s.section_description,
            sequence_number := s.sequence_number, created_at := now, updated_at := now }]

/-- Embeds `TemplateService.upsertDocumentPanel`.  The insert binds
`deleted_at` as `NULL`, so the conflict clause's `excluded.deleted_at`
also clears the column. -/
def upsertDocumentPanel (t : List DocumentPanelRow) (p : DocumentPanel) :
    List DocumentPanelRow :=
  if t.any (fun r => r.id == p.id) then
    t.map fun r =>
      if r.id == p.id then
        { r with
          content := jsonStringify (if jsTruthy p.content then p.content else Json.obj []),
          updated_at := p.updated_at, deleted_at := none }
      else r
  else
    t ++ [{ id := p.id, document_id := p.document_id, template_id := p.template_id,
            content := jsonStringify (if jsTruthy p.content then p.content else Json.obj []),
            created_at := p.created_at, updated_at := p.updated_at, deleted_at := none }]

end TemplateService

/-! ## Ingestion state

`St` carries the in-memory fingerprint store, the SQLite store, a count of
upsert calls per table (observational, for the idempotence properties),
and deterministic sources for `crypto.randomUUID()` and
`CURRENT_TIMESTAMP`. -/

/-- Number of upsert calls issued per table. -/
structure Counts where
  documents : Nat
  calendar_events : Nat
  people : Nat
  transcript_entries : Nat
  panel_templates : Nat
  template_sections : Nat
  document_panels : Nat
deriving DecidableEq

/-- Zero call counts. -/
def Counts.zero : Counts :=
  { documents := 0, calendar_events := 0, people := 0, transcript_entries := 0,
    panel_templates := 0, template_sections := 0, document_panels := 0 }

/-- Full ingestion state. -/
structure St where
  track : LastKnownState
  db : DB
  counts : Counts
  uuidSeq : Nat
  clock : Nat
deriving DecidableEq

/-- State of a freshly started process over an empty store. -/
def St.init : St :=
  { track := LastKnownState.empty, db := DB.empty, counts := Counts.zero,
    uuidSeq := 0, clock := 0 }

/-- Deterministic stand-in for `crypto.randomUUID()`. -/
def freshUuid (st : St) : String × St :=
  ("uuid-" ++ toString st.uuidSeq, { st with uuidSeq := st.uuidSeq + 1 })

/-! ## HistoryTracker (src/History.ts) -/

namespace HistoryTracker

/-- Bool rendered the way `getDocumentHash` renders it. -/
def b01 (b : Bool) : String := if b then "1" else "0"

/-- Embeds `getDocumentHash`: digest of the pipe-joined projection of the
nine fields the tracker considers relevant. -/
def getDocumentHash (doc : Document) : String :=
  HashUtil.getHash (String.intercalate "|"
    [doc.title, doc.notes_markdown, doc.notes_plain, doc.updated_at,
     doc.deleted_at.getD "", b01 doc.public, b01 doc.valid_meeting,
     b01 doc.has_shareable_link, b01 doc.privacy_mode_enabled])

/-- Embeds the `getDocument` prepared statement (`SELECT * FROM documents
WHERE id = ?`, first row). -/
def getDocumentFromId (db : DB) (documentId : String) : Option DocumentRow :=
  db.documents.find? (fun r => r.id == documentId)

/-- Embeds `detectChangedFields`.  The four boolean columns read back from
SQLite are the numbers 0/1, and the source compares them against the
incoming booleans with `!==`, which never holds between a boolean and a
number — so those four names are always reported once the per-field
comparison is reached. -/
def detectChangedFields (db : DB) (doc : Document) (lastHash : Option String) :
    List String :=
  match lastHash with
  | none => ["initial_creation"]
  | some lh =>
    if lh = getDocumentHash doc then []
    else
      match getDocumentFromId db doc.id with
      | none => ["data_changed"]
      | some lastDoc =>
        (if doc.title ≠ lastDoc.title then ["title"] else [])
          ++ (if doc.notes_markdown ≠ lastDoc.notes_markdown then ["notes_markdown"] else [])
          ++ (if doc.notes_plain ≠ lastDoc.notes_plain then ["notes_plain"] else [])
          ++ (if doc.updated_at ≠ lastDoc.updated_at then ["updated_at"] else [])
          ++ (if doc.deleted_at ≠ lastDoc.deleted_at then ["deleted_at"] else [])
          ++ ["public", "valid_meeting", "has_shareable_link", "privacy_mode_enabled"]

/-- Embeds the `updateHash` prepared statement (upsert into
`document_state_hashes`, stamping `last_change`). -/
def updateHash (t : List DocumentStateHashRow) (docId hash changedFields : String)
    (now : Nat) : List DocumentStateHashRow :=
  if t.any (fun r => r.document_id == docId) then
    t.map fun r =>
      if r.document_id == docId then
        { r with content_hash := hash, changed_fields := changedFields, last_change := now }
      else r
  else
    t ++ [{ document_id := docId, content_hash := hash,
            changed_fields := changedFields, last_change := now }]

/-- Historical record inserted by `insertHistory`: a fresh identifier, the
document's id as back-reference, and the **incoming** document's columns. -/
def historyRow (uuid : String) (doc : Document) (now : Nat) : HistoricalDocumentRow :=
  { id := uuid, document_id := doc.id, title := doc.title, created_at := doc.created_at,
    updated_at := doc.updated_at, deleted_at := doc.deleted_at, user_id := doc.user_id,
    notes_markdown := doc.notes_markdown, notes_plain := doc.notes_plain,
    transcribe := doc.transcribe, public := doc.public, type := doc.type,
    valid_meeting := doc.valid_meeting, has_shareable_link := doc.has_shareable_link,
    creation_source := doc.creation_source,
    subscription_plan_id := doc.subscription_plan_id,
    privacy_mode_enabled := doc.privacy_mode_enabled, history_timestamp := now }

/-- Embeds `trackDocumentHistory`: reads the stored content hash, detects
changed fields, and when any are reported upserts the new hash and appends
one historical record in the same transaction.  Returns whether a record
was written. -/
def trackDocumentHistory (doc : Document) (st : St) : Bool × St :=
  if doc.id = "" then (false, st)
  else
    let lastHash :=
      (st.db.document_state_hashes.find? (fun r => r.document_id == doc.id)).map
        (fun r => r.content_hash)
    let changedFields := detectChangedFields st.db doc lastHash
    if changedFields.isEmpty then (false, st)
    else
      let currentHash := getDocumentHash doc
      let (uuid, st1) := freshUuid st
      (true,
       { st1 with
         db :=
           { st1.db with
             document_state_hashes :=
               updateHash st1.db.document_state_hashes doc.id currentHash
                 (jsonStringify (Json.arr (changedFields.map Json.str))) st1.clock,
             historical_documents :=
               st1.db.historical_documents ++ [historyRow uuid doc st1.clock] },
         clock := st1.clock + 1 })

/-- Embeds `getDocumentHistory` (`ORDER BY history_timestamp DESC`).
Records are appended with a strictly increasing capture timestamp, so the
descending order is the reverse of the table's insertion order. -/
def getDocumentHistory (db : DB) (documentId : String) : List HistoricalDocumentRow :=
  (db.historical_documents.filter (fun r => r.document_id == documentId)).reverse

end HistoryTracker

/-! ## Json-to-entity projections

The pipeline hands parsed snapshot objects to the services; these
projections read the fields the services and interfaces name. -/

/-- Required string field (snapshots produced by the app always carry it). -/
def jStr (j : Json) (k : String) : String :=
  match getField j k with
  | some (.str s) => s
  | _ => ""

/-- Nullable/optional string field. -/
def jStrOpt (j : Json) (k : String) : Option String :=
  match getField j k with
  | some (.str s) => some s
  | _ => none

/-- Boolean field (absent reads as `undefined`, which is falsy). -/
def jBool (j : Json) (k : String) : Bool :=
  match getField j k with
  | some (.bool b) => b
  | _ => false

/-- Optional boolean field. -/
def jBoolOpt (j : Json) (k : String) : Option Bool :=
  match getField j k with
  | some (.bool b) => some b
  | _ => none

/-- Numeric field. -/
def jInt (j : Json) (k : String) : Int :=
  match getField j k with
  | some (.num n) => n
  | _ => 0

/-- Optional numeric field. -/
def jIntOpt (j : Json) (k : String) : Option Int :=
  match getField j k with
  | some (.num n) => some n
  | _ => none

/-- Elements of an array value (call sites only map over arrays). -/
def jsonElems : Json → List Json
  | .arr es => es
  | _ => []

/-- Attendee carried by a calendar event. -/
def toAttendee (j : Json) : CalendarAttendee :=
  { email := jStr j "email", displayName := jStrOpt j "displayName",
    organizer := jBoolOpt j "organizer", responseStatus := jStrOpt j "responseStatus" }

/-- Calendar event attached to a document. -/
def toCalendarEvent (j : Json) : CalendarEvent :=
  { id := jStr j "id", document_id := jStrOpt j "document_id",
    summary := jStr j "summary", description := jStrOpt j "description",
    start_time := jStr j "start_time", end_time := jStr j "end_time",
    timezone := jStr j "timezone", status := jStr j "status",
    calendar_id := jStr j "calendar_id", html_link := jStr j "html_link",
    hangout_link := jStrOpt j "hangout_link", location := jStrOpt j "location",
    organizer_email := jStr j "organizer_email", created_at := jStr j "created_at",
    updated_at := jStr j "updated_at",
    attendees :=
      match getField j "attendees" with
      | some (.arr l) => some (l.map toAttendee)
      | _ => none }

/-- Document of the snapshot's `state.documents` collection. -/
def toDocument (j : Json) : Document :=
  { id := jStr j "id", title := jStr j "title", created_at := jStr j "created_at",
    updated_at := jStr j "updated_at", deleted_at := jStrOpt j "deleted_at",
    user_id := jStr j "user_id", notes_markdown := jStr j "notes_markdown",
    notes_plain := jStr j "notes_plain", transcribe := jBool j "transcribe",
    public := jBool j "public", type := jStrOpt j "type",
    valid_meeting := jBool j "valid_meeting",
    has_shareable_link := jBool j "has_shareable_link",
    creation_source := jStr j "creation_source",
    subscription_plan_id := jStrOpt j "subscription_plan_id",
    privacy_mode_enabled := jBool j "privacy_mode_enabled",
    google_calendar_event :=
      match getField j "google_calendar_event" with
      | some ev@(.obj _) => some (toCalendarEvent ev)
      | _ => none }

/-- Transcript entry of the snapshot's `state.transcripts` side table. -/
def toTranscriptEntry (j : Json) : TranscriptEntry :=
  { id := jStr j "id", text := jStr j "text", source := jStr j "source",
    speaker := jStr j "speaker", start_timestamp := jStr j "start_timestamp",
    end_timestamp := jStr j "end_timestamp", is_final := jBool j "is_final",
    sequence_number := jInt j "sequence_number" }

/-- Panel template of the snapshot's `state.templates` side table. -/
def toPanelTemplate (j : Json) : PanelTemplate :=
  { id := jStr j "id", category := jStrOpt j "category", title := jStrOpt j "title",
    description := jStrOpt j "description", color := jStrOpt j "color",
    symbol := jStrOpt j "symbol", is_granola := jBool j "is_granola",
    created_at := jStrOpt j "created_at", updated_at := jStrOpt j "updated_at",
    deleted_at := jStrOpt j "deleted_at", shared_with := jStrOpt j "shared_with",
    user_types := (getField j "user_types").getD Json.null }

/-- Template section of the snapshot's `state.templates` side table. -/
def toTemplateSection (j : Json) : TemplateSection :=
  { id := jStr j "id", template_id := jStr j "template_id",
    heading := jStrOpt j "heading",
    section_description := jStrOpt j "section_description",
    sequence_number := jIntOpt j "sequence_number" }

/-- Document panel of the snapshot's `state.templates` side table. -/
def toDocumentPanel (j : Json) : DocumentPanel :=
  { id := jStr j "id", document_id := jStr j "document_id",
    template_id := jStr j "template_id",
    content := (getField j "content").getD Json.null,
    created_at := jStrOpt j "created_at", updated_at := jStrOpt j "updated_at",
    deleted_at := jStrOpt j "deleted_at" }

/-! ## MeetingDataIngestor (src/index.ts) -/

/-- Error taxonomy of the read/validate/ingest cycle. -/
inductive IngestError where
  | emptyCache : IngestError
  | outerParse : IngestError
  | missingCacheProp : IngestError
  | innerParse : IngestError
  | invalidStructure : IngestError
  | upsertFailure (id : String) : IngestError
deriving DecidableEq

namespace MeetingDataIngestor

/-- Batch size of the ingestion engine. -/
def CHUNK_SIZE : Nat := 100

/-- Applies the document upsert to the store, counting the call. -/
def applyDocumentUpsert (d : Document) (st : St) : St :=
  { st with
    db := { st.db with documents := DocumentService.upsertDocument st.db.documents d },
    counts := { st.counts with documents := st.counts.documents + 1 } }

/-- Applies the calendar-event upsert, counting the call. -/
def applyCalendarUpsert (e : CalendarEvent) (st : St) : St :=
  { st with
    db := { st.db with
            calendar_events := CalendarService.upsertCalendarEvent st.db.calendar_events e },
    counts := { st.counts with calendar_events := st.counts.calendar_events + 1 } }

/-- Applies the person upsert, counting the call. -/
def applyPersonUpsert (p : Person) (st : St) : St :=
  { st with
    db := { st.db with people := PersonService.upsertPerson st.db.people p },
    counts := { st.counts with people := st.counts.people + 1 } }

/-- Applies the transcript upsert, counting the call. -/
def applyTranscriptUpsert (docId : String) (e : TranscriptEntry) (st : St) : St :=
  { st with
    db := { st.db with
            transcript_entries :=
              TranscriptService.upsertTranscriptEntry st.db.transcript_entries docId e },
    counts := { st.counts with transcript_entries := st.counts.transcript_entries + 1 } }

/-- Applies the panel-template upsert, counting the call. -/
def applyTemplateUpsert (p : PanelTemplate) (st : St) : St :=
  { st with
    db := { st.db with
            panel_templates := TemplateService.upsertPanelTemplate st.db.panel_templates p },
    counts := { st.counts with panel_templates := st.counts.panel_templates + 1 } }

/-- Applies the template-section upsert, counting the call. -/
def applySectionUpsert (s : TemplateSection) (st : St) : St :=
  { st with
    db := { st.db with
            template_sections :=
              TemplateService.upsertTemplateSection st.db.template_sections s st.clock },
    counts := { st.counts with template_sections := st.counts.template_sections + 1 } }

/-- Applies the document-panel upsert, counting the call. -/
def applyPanelUpsert (p : DocumentPanel) (st : St) : St :=
  { st with
    db := { st.db with
            document_panels := TemplateService.upsertDocumentPanel st.db.document_panels p },
    counts := { st.counts with document_panels := st.counts.document_panels + 1 } }

/-- JavaScript `x || null` on an optional string (empty strings are falsy). -/
def orNull : Option String → Option String
  | some s => if s = "" then none else some s
  | none => none

/-- Person record derived from an attendee in `processChunk`. -/
def buildPerson (docId uuid : String) (a : CalendarAttendee) : Person :=
  { id := uuid, document_id := docId, email := a.email,
    name := orNull a.displayName,
    role := if a.organizer.getD false then some "organizer" else some "attendee",
    response_status := orNull a.responseStatus,
    avatar_url := none, company_name := none, job_title := none }

/-- Processes one attendee: derive a person with a fresh id, then
detect-and-upsert. -/
def processAttendee (docId : String) (a : CalendarAttendee) (st : St) : St :=
  let (uuid, st1) := freshUuid st
  let person := buildPerson docId uuid a
  let (changed, tr) := StateTrackingService.hasPersonChanged docId person st1.track
  let st2 := { st1 with track := tr }
  if changed then applyPersonUpsert person st2 else st2

/-- Processes one transcript entry: detect-and-upsert. -/
def processTranscriptEntry (docId : String) (st : St) (e : TranscriptEntry) : St :=
  let (changed, tr) := StateTrackingService.hasTranscriptChanged docId e st.track
  let st1 := { st with track := tr }
  if changed then applyTranscriptUpsert docId e st1 else st1

/-- Reads `data.state.transcripts?.[docId]`. -/
def transcriptsVal (data : Json) (docId : String) : Option Json :=
  match getField data "state" with
  | some stv =>
    match getField stv "transcripts" with
    | some ts => getField ts docId
    | none => none
  | none => none

/-- Transcript entries the snapshot carries for a document (the source
maps over the array after a truthiness check). -/
def transcriptEntriesFor (data : Json) (docId : String) : List TranscriptEntry :=
  match transcriptsVal data docId with
  | some v => if jsTruthy v then (jsonElems v).map toTranscriptEntry else []
  | none => []

/-- Reads `data.state.templates?.[docId]`. -/
def templatesVal (data : Json) (docId : String) : Option Json :=
  match getField data "state" with
  | some stv =>
    match getField stv "templates" with
    | some ts => getField ts docId
    | none => none
  | none => none

/-- The `templateRecords.panel_templates` block: unconditional upsert of
every listed panel template. -/
def processPanelTemplates (tr : Json) (st : St) : St :=
  match getField tr "panel_templates" with
  | some pt =>
    if jsTruthy pt then
      ((jsonElems pt).map toPanelTemplate).foldl (fun s p => applyTemplateUpsert p s) st
    else st
  | none => st

/-- The `templateRecords.template_sections` block. -/
def processTemplateSections (tr : Json) (st : St) : St :=
  match getField tr "template_sections" with
  | some ts =>
    if jsTruthy ts then
      ((jsonElems ts).map toTemplateSection).foldl (fun s x => applySectionUpsert x s) st
    else st
  | none => st

/-- The `templateRecords.document_panels` block (panels get the owning
document's id). -/
def processDocumentPanels (tr : Json) (docId : String) (st : St) : St :=
  match getField tr "document_panels" with
  | some dp =>
    if jsTruthy dp then
      ((jsonElems dp).map toDocumentPanel).foldl
        (fun s p => applyPanelUpsert { p with document_id := docId } s) st
    else st
  | none => st

/-- Processes the template records attached to a document: panel
templates, template sections and document panels are upserted
unconditionally (no change detection). -/
def processTemplates (data : Json) (docId : String) (st : St) : St :=
  match templatesVal data docId with
  | none => st
  | some tr =>
    if jsTruthy tr then
      processDocumentPanels tr docId (processTemplateSections tr (processPanelTemplates tr st))
    else st

/-- Attendee loop of the calendar step. -/
def processAttendees (docId : String) (eventObj : CalendarEvent) (stU : St) : St :=
  match eventObj.attendees with
  | none => stU
  | some atts => atts.foldl (fun s a => processAttendee docId a s) stU

/-- Calendar-event step of one document's processing: the event object
gets the owning document's id, and when its fingerprint changed it is
upserted together with the person records derived from its attendees. -/
def processCalendar (doc : Document) (st2 : St) : St :=
  match doc.google_calendar_event with
  | none => st2
  | some ev =>
    let eventObj := { ev with document_id := some doc.id }
    let (evChanged, tr2) :=
      StateTrackingService.hasCalendarEventChanged doc.id eventObj st2.track
    let stE := { st2 with track := tr2 }
    if evChanged then processAttendees doc.id eventObj (applyCalendarUpsert eventObj stE)
    else stE

/-- Calendar, transcript and template steps of one document's processing,
run after the document's own detect/history/upsert step. -/
def processDocRest (data : Json) (doc : Document) (st2 : St) : St :=
  processTemplates data doc.id
    ((transcriptEntriesFor data doc.id).foldl (processTranscriptEntry doc.id)
      (processCalendar doc st2))

/-- Processes one document of a chunk, in the order of `processChunk`:
document detect/history/upsert, then calendar event with attendees,
transcript entries and template records.  `fail` models a storage error
thrown by the document's upsert statement (as exercised by the
repository's transaction rollback test); the error carries the state at
the point of the throw. -/
def processDoc (fail : Document → Bool) (data : Json) (doc : Document) (st0 : St) :
    Except (IngestError × St) St :=
  let (changed, tr) := StateTrackingService.hasDocumentChanged doc st0.track
  let st1 := { st0 with track := tr }
  if changed then
    let (_, sth) := HistoryTracker.trackDocumentHistory doc st1
    if fail doc then .error (.upsertFailure doc.id, sth)
    else .ok (processDocRest data doc (applyDocumentUpsert doc sth))
  else .ok (processDocRest data doc st1)

/-- Sequential processing of a chunk's documents (the per-document promise
work is serialised before the batch commit point). -/
def processDocs (fail : Document → Bool) (data : Json) :
    List Document → St → Except (IngestError × St) St
  | [], st => .ok st
  | d :: ds, st =>
    match processDoc fail data d st with
    | .ok st' => processDocs fail data ds st'
    | .error e => .error e

/-- Embeds `processChunk`: the chunk's documents inside one transaction.
A failure rolls the store back to the chunk's start; the in-memory
fingerprint store and the consumed uuid/clock values are not transactional
and keep their values from the point of failure. -/
def processChunk (fail : Document → Bool) (data : Json) (chunk : List Document)
    (st : St) : Except (IngestError × St) St :=
  match processDocs fail data chunk st with
  | .ok st' => .ok st'
  | .error (e, stE) => .error (e, { stE with db := st.db })

/-- Fixed-size slices `documents.slice(i, i + CHUNK_SIZE)` of the loop in
`processCache`, driven by a fuel bounded by the list length. -/
def chunksAux {α : Type} : Nat → List α → List (List α)
  | 0, _ => []
  | _ + 1, [] => []
  | f + 1, l => l.take CHUNK_SIZE :: chunksAux f (l.drop CHUNK_SIZE)

/-- The batches the ingestion loop forms from the document list. -/
def chunkList {α : Type} (l : List α) : List (List α) := chunksAux l.length l

/-- Runs the batches in order; a failed batch stops processing, leaving
every previously committed batch in place. -/
def processChunks (fail : Document → Bool) (data : Json) :
    List (List Document) → St → St × Option IngestError
  | [], st => (st, none)
  | c :: cs, st =>
    match processChunk fail data c st with
    | .ok st' => processChunks fail data cs st'
    | .error (e, st') => (st', some e)

/-- The document-level ingestion loop of `processCache`, after the
document list has been extracted from the snapshot. -/
def processCacheDocs (fail : Document → Bool) (data : Json) (docs : List Document)
    (st : St) : St × Option IngestError :=
  processChunks fail data (chunkList docs) st

/-- Embeds the `documents` shape normalisation of `processCache`:
`Array.isArray(x) ? x : Object.values(x)`. -/
def normalizeDocuments : Json → List Json
  | .arr es => es
  | .obj fs => fs.map Prod.snd
  | .str s => s.toList.map (fun c => Json.str ⟨[c]⟩)
  | _ => []

/-- Reads `data?.state?.documents`. -/
def docsFieldVal (data : Json) : Option Json :=
  match getField data "state" with
  | some stv => getField stv "documents"
  | none => none

/-- Embeds `processCache`: validates `data?.state?.documents`, normalises
the collection shape, and runs the chunk loop. -/
def processCache (fail : Document → Bool) (data : Json) (st : St) :
    St × Option IngestError :=
  match docsFieldVal data with
  | none => (st, some .invalidStructure)
  | some v =>
    if jsTruthy v then
      processCacheDocs fail data ((normalizeDocuments v).map toDocument) st
    else (st, some .invalidStructure)

/-- Embeds `readAndParseCache` over an abstract `JSON.parse`
(`parse s = none` models a parse exception): empty-content check, outer
parse, presence of the `cache` property, inner parse of its (string)
value. -/
def readAndParseCache (parse : String → Option Json) (content : String) :
    Except IngestError Json :=
  if content = "" then .error .emptyCache
  else
    match parse content with
    | none => .error .outerParse
    | some outer =>
      match getField outer "cache" with
      | none => .error .missingCacheProp
      | some cacheVal =>
        if jsTruthy cacheVal then
          match parse (match cacheVal with | .str s => s | v => jsToString v) with
          | none => .error .innerParse
          | some inner => .ok inner
        else .error .missingCacheProp

/-- One read-and-ingest cycle, as run by `startMonitoring` on start and on
every file-change notification. -/
def ingestCycle (fail : Document → Bool) (parse : String → Option Json)
    (content : String) (st : St) : St × Option IngestError :=
  match readAndParseCache parse content with
  | .error e => (st, some e)
  | .ok data => processCache fail data st

end MeetingDataIngestor

/-! ## Helper lemmas -/

theorem lookupA_setA_self {α : Type} (l : List (String × α)) (k : String) (v : α) :
    lookupA (setA l k v) k = some v := by
  induction l with
  | nil => simp [setA, lookupA]
  | cons h t ih =>
    obtain ⟨k', v'⟩ := h
    by_cases hk : k' = k <;> simp [setA, lookupA, hk, ih]

theorem lookupA_setA_ne {α : Type} (l : List (String × α)) (k k' : String) (v : α)
    (h : k' ≠ k) : lookupA (setA l k v) k' = lookupA l k' := by
  have hne : ¬ k = k' := fun e => h e.symm
  induction l with
  | nil => simp [setA, lookupA, hne]
  | cons p t ih =>
    obtain ⟨k₀, v₀⟩ := p
    by_cases hk : k₀ = k
    · subst hk
      simp [setA, lookupA, hne]
    · simp [setA, lookupA, hk, ih]

namespace MeetingDataIngestor

theorem chunksAux_nil {α : Type} : ∀ f : Nat, chunksAux (α := α) f [] = [] := by
  intro f
  cases f <;> rfl

theorem chunksAux_cons {α : Type} (f : Nat) (x : α) (xs : List α) :
    chunksAux (f + 1) (x :: xs) =
      (x :: xs).take CHUNK_SIZE :: chunksAux f ((x :: xs).drop CHUNK_SIZE) := rfl

theorem chunksAux_flatten {α : Type} :
    ∀ (f : Nat) (l : List α), l.length ≤ f → (chunksAux f l).flatten = l := by
  intro f
  induction f with
  | zero =>
    intro l hl
    have : l = [] := List.eq_nil_of_length_eq_zero (Nat.le_zero.mp hl)
    subst this
    rfl
  | succ f ih =>
    intro l hl
    cases l with
    | nil => rfl
    | cons x xs =>
      have hdl : ((x :: xs).drop CHUNK_SIZE).length ≤ f := by
        rw [List.length_drop]
        have hc : CHUNK_SIZE = 100 := rfl
        have hlc : (x :: xs).length = xs.length + 1 := rfl
        have h1 : (x :: xs).length ≤ f + 1 := hl
        omega
      rw [chunksAux_cons, List.flatten_cons, ih _ hdl, List.take_append_drop]

theorem chunkList_flatten {α : Type} (l : List α) : (chunkList l).flatten = l :=
  chunksAux_flatten l.length l (Nat.le_refl _)

theorem chunksAux_mem_bound {α : Type} :
    ∀ (f : Nat) (l : List α) (c : List α), c ∈ chunksAux f l →
      c ≠ [] ∧ c.length ≤ CHUNK_SIZE := by
  intro f
  induction f with
  | zero =>
    intro l c hc
    simp [chunksAux] at hc
  | succ f ih =>
    intro l c hc
    cases l with
    | nil => simp [chunksAux_nil] at hc
    | cons x xs =>
      rw [chunksAux_cons] at hc
      rcases List.mem_cons.mp hc with h | h
      · subst h
        constructor
        · simp [List.take_eq_nil_iff, CHUNK_SIZE]
        · rw [List.length_take]
          exact Nat.min_le_left _ _
      · exact ih _ _ h

theorem chunksAux_internal_full {α : Type} :
    ∀ (f : Nat) (l : List α) (pre : List (List α)) (c : List α) (post : List (List α)),
      chunksAux f l = pre ++ c :: post → post ≠ [] → c.length = CHUNK_SIZE := by
  intro f
  induction f with
  | zero =>
    intro l pre c post heq _
    rw [show chunksAux (α := α) 0 l = [] from rfl] at heq
    cases pre <;> simp at heq
  | succ f ih =>
    intro l pre c post heq hpost
    cases l with
    | nil =>
      rw [chunksAux_nil] at heq
      cases pre <;> simp at heq
    | cons x xs =>
      rw [chunksAux_cons] at heq
      cases pre with
      | nil =>
        rw [List.nil_append] at heq
        injection heq with hc hrest
        have hdrop : (x :: xs).drop CHUNK_SIZE ≠ [] := by
          intro hnil
          rw [hnil, chunksAux_nil] at hrest
          exact hpost hrest.symm
        have hlen : CHUNK_SIZE < (x :: xs).length := by
          by_contra hle
          push_neg at hle
          exact hdrop (List.drop_eq_nil_of_le hle)
        rw [← hc, List.length_take]
        exact Nat.min_eq_left (Nat.le_of_lt hlen)
      | cons p pre' =>
        rw [List.cons_append] at heq
        injection heq with h1 h2
        exact ih _ pre' c post h2 hpost

end MeetingDataIngestor

/-! ## Concrete entities used to instantiate theorems -/

/-- Sample document, first-ingested state (mirrors the repository's watch
test: `doc-123` titled `Initial Meeting`). -/
def exDoc1 : Document :=
  { id := "doc-123", title := "Initial Meeting", created_at := "2024-01-01",
    updated_at := "2024-01-01", deleted_at := none, user_id := "u1",
    notes_markdown := "", notes_plain := "", transcribe := false, public := false,
    type := none, valid_meeting := true, has_shareable_link := false,
    creation_source := "test", subscription_plan_id := none,
    privacy_mode_enabled := false, google_calendar_event := none }

/-- The same document re-ingested with different relevant content. -/
def exDoc2 : Document :=
  { exDoc1 with title := "Updated Meeting", updated_at := "2024-01-02" }

/-- A document on which the storage layer's upsert fails. -/
def exBadDoc : Document := { exDoc1 with id := "bad-1", title := "Poison" }

/-- Oracle that fails exactly the poison document's upsert. -/
def exFail : Document → Bool := fun d => d.id == "bad-1"

/-- Oracle with no storage failures. -/
def noFail : Document → Bool := fun _ => false

/-- Sample panel template carried by a snapshot. -/
def exTemplate : PanelTemplate :=
  { id := "tmpl-1", category := some "meeting", title := some "Notes",
    description := none, color := none, symbol := none, is_granola := true,
    created_at := none, updated_at := none, deleted_at := none,
    shared_with := none, user_types := Json.null }

/-- Snapshot payload (inner cache) with the given documents collection,
transcripts and templates side tables. -/
def mkSnapshot (docs ts tp : Json) : Json :=
  Json.obj [("state", Json.obj
    [("documents", docs), ("transcripts", ts), ("templates", tp)])]

open MeetingDataIngestor in
/-- C9: ingestion partitions the snapshot's document list into consecutive
batches of `CHUNK_SIZE = 100` documents (the final batch possibly
smaller): flattening the batches gives back the document list in order (so
every document is in exactly one batch, in snapshot order), every batch is
nonempty with at most 100 documents — and each batch is what one
transaction of the chunk loop covers. -/
theorem chunking_partitions_snapshot (docs : List Document) :
    (chunkList docs).flatten = docs
    ∧ (∀ c ∈ chunkList docs, c ≠ [] ∧ c.length ≤ CHUNK_SIZE)
    ∧ (∀ (pre : List (List Document)) (c : List Document) (post : List (List Document)),
        chunkList docs = pre ++ c :: post → post ≠ [] → c.length = CHUNK_SIZE)
    ∧ (∀ (fail : Document → Bool) (data : Json) (st : St),
        processCacheDocs fail data docs st = processChunks fail data (chunkList docs) st) :=
  ⟨chunkList_flatten docs,
   fun c hc => chunksAux_mem_bound docs.length docs c hc,
   fun pre c post heq hpost => chunksAux_internal_full docs.length docs pre c post heq hpost,
   fun _ _ _ => rfl⟩

set_option maxRecDepth 10000 in
open MeetingDataIngestor in
/-- Witness for C9: on a concrete 201-document snapshot the non-final
batches have exactly `CHUNK_SIZE` documents. -/
theorem chunking_partitions_snapshot_witness :
    (List.replicate 100 exDoc1).length = MeetingDataIngestor.CHUNK_SIZE :=
  (chunking_partitions_snapshot (List.replicate 201 exDoc1)).2.2.1
    [] (List.replicate 100 exDoc1) [List.replicate 100 exDoc1, [exDoc1]]
    (by rfl) (by simp)

open StateTrackingService in
/-- C7: contract of the change detector, for each of the four entity
classes.  When the fingerprint store holds no entry under the entity's key
or holds a different fingerprint, the new fingerprint is stored and the
call returns `true`; when the stored fingerprint is identical the call
returns `false` and the whole store is left unmodified. -/
theorem change_detector_contract :
    (∀ (doc : Document) (st : LastKnownState),
      (lookupA st.documentHashes doc.id = some (docFingerprint doc) →
        hasDocumentChanged doc st = (false, st))
      ∧ (lookupA st.documentHashes doc.id ≠ some (docFingerprint doc) →
        hasDocumentChanged doc st =
          (true,
           { st with
             documentHashes := setA st.documentHashes doc.id (docFingerprint doc) })))
    ∧ (∀ (docId : String) (event : CalendarEvent) (st : LastKnownState),
      (lookupA st.calendarHashes docId = some (eventFingerprint event) →
        hasCalendarEventChanged docId event st = (false, st))
      ∧ (lookupA st.calendarHashes docId ≠ some (eventFingerprint event) →
        hasCalendarEventChanged docId event st =
          (true,
           { st with
             calendarHashes := setA st.calendarHashes docId (eventFingerprint event) })))
    ∧ (∀ (docId : String) (entry : TranscriptEntry) (st : LastKnownState),
      (lookupA ((lookupA st.transcriptHashes docId).getD []) entry.id =
          some (transcriptFingerprint entry) →
        hasTranscriptChanged docId entry st = (false, st))
      ∧ (lookupA ((lookupA st.transcriptHashes docId).getD []) entry.id ≠
          some (transcriptFingerprint entry) →
        hasTranscriptChanged docId entry st =
          (true,
           { st with
             transcriptHashes :=
               setA st.transcriptHashes docId
                 (setA ((lookupA st.transcriptHashes docId).getD []) entry.id
                   (transcriptFingerprint entry)) })))
    ∧ (∀ (docId : String) (person : Person) (st : LastKnownState),
      (lookupA ((lookupA st.personHashes docId).getD []) person.id =
          some (personFingerprint person) →
        hasPersonChanged docId person st = (false, st))
      ∧ (lookupA ((lookupA st.personHashes docId).getD []) person.id ≠
          some (personFingerprint person) →
        hasPersonChanged docId person st =
          (true,
           { st with
             personHashes :=
               setA st.personHashes docId
                 (setA ((lookupA st.personHashes docId).getD []) person.id
                   (personFingerprint person)) }))) := by
  refine ⟨fun doc st => ⟨fun h => ?_, fun h => ?_⟩,
          fun docId event st => ⟨fun h => ?_, fun h => ?_⟩,
          fun docId entry st => ⟨fun h => ?_, fun h => ?_⟩,
          fun docId person st => ⟨fun h => ?_, fun h => ?_⟩⟩ <;>
    simp [hasDocumentChanged, hasCalendarEventChanged, hasTranscriptChanged,
          hasPersonChanged, h]

/-- Witness for C7: a fresh store has no entry for the sample document, so
the detector reports a change and stores its fingerprint. -/
theorem change_detector_contract_witness :
    StateTrackingService.hasDocumentChanged exDoc1 LastKnownState.empty =
      (true,
       { LastKnownState.empty with
         documentHashes :=
           setA LastKnownState.empty.documentHashes exDoc1.id (docFingerprint exDoc1) }) :=
  (change_detector_contract.1 exDoc1 LastKnownState.empty).2 (by decide)

/-- C10: frame of the document upsert.  When a row with the incoming id
already exists, the table is rewritten by patching that row in place, and
the patch overwrites exactly title, updated_at, deleted_at,
notes_markdown, notes_plain, public, valid_meeting, has_shareable_link and
privacy_mode_enabled, while id, created_at, user_id, transcribe, type,
creation_source and subscription_plan_id keep their persisted values. -/
theorem document_upsert_frame :
    (∀ (t : List DocumentRow) (d : Document),
      t.any (fun r => r.id == d.id) = true →
      DocumentService.upsertDocument t d =
        t.map fun r => if r.id == d.id then DocumentService.mergeRow r d else r)
    ∧ (∀ (r : DocumentRow) (d : Document),
      (DocumentService.mergeRow r d).id = r.id
      ∧ (DocumentService.mergeRow r d).created_at = r.created_at
      ∧ (DocumentService.mergeRow r d).user_id = r.user_id
      ∧ (DocumentService.mergeRow r d).transcribe = r.transcribe
      ∧ (DocumentService.mergeRow r d).type = r.type
      ∧ (DocumentService.mergeRow r d).creation_source = r.creation_source
      ∧ (DocumentService.mergeRow r d).subscription_plan_id = r.subscription_plan_id
      ∧ (DocumentService.mergeRow r d).title = d.title
      ∧ (DocumentService.mergeRow r d).updated_at = d.updated_at
      ∧ (DocumentService.mergeRow r d).deleted_at = d.deleted_at
      ∧ (DocumentService.mergeRow r d).notes_markdown = d.notes_markdown
      ∧ (DocumentService.mergeRow r d).notes_plain = d.notes_plain
      ∧ (DocumentService.mergeRow r d).public = d.public
      ∧ (DocumentService.mergeRow r d).valid_meeting = d.valid_meeting
      ∧ (DocumentService.mergeRow r d).has_shareable_link = d.has_shareable_link
      ∧ (DocumentService.mergeRow r d).privacy_mode_enabled = d.privacy_mode_enabled) := by
  constructor
  · intro t d h
    simp [DocumentService.upsertDocument, h]
  · intro r d
    refine ⟨rfl, rfl, rfl, rfl, rfl, rfl, rfl, rfl, rfl, rfl, rfl, rfl, rfl, rfl, rfl, rfl⟩

/-- Witness for C10: upserting the updated sample document over its
persisted first state patches the single existing row in place. -/
theorem document_upsert_frame_witness :
    DocumentService.upsertDocument [exDoc1.toRow] exDoc2 =
      [exDoc1.toRow].map fun r =>
        if r.id == exDoc2.id then DocumentService.mergeRow r exDoc2 else r :=
  document_upsert_frame.1 [exDoc1.toRow] exDoc2 (by decide)

open MeetingDataIngestor in
/-- C5: whenever the read stage fails (unparsable outer layer, missing or
falsy `cache` property, unparsable inner layer, empty file) or the decoded
payload lacks a truthy `state.documents`, the cycle reports an error and
returns the store untouched — in particular the document count is
unchanged.  The hypothesis states exactly that disjunction: every
successful read yields a payload failing the `state.documents` check. -/
theorem malformed_input_resilience (fail : Document → Bool)
    (parse : String → Option Json) (content : String) (st : St)
    (h : ∀ data, readAndParseCache parse content = .ok data →
          jsTruthyOpt (docsFieldVal data) = false) :
    (ingestCycle fail parse content st).1 = st
    ∧ (ingestCycle fail parse content st).2.isSome = true := by
  unfold ingestCycle
  cases hr : readAndParseCache parse content with
  | error e => simp
  | ok data =>
    have hd := h data hr
    unfold processCache
    cases hv : docsFieldVal data with
    | none => simp [hv]
    | some v =>
      rw [hv] at hd
      simp only [jsTruthyOpt] at hd
      simp [hv, hd]

/-- Witness for C5: a cycle over unparsable content leaves the initial
store unchanged and reports an error. -/
theorem malformed_input_resilience_witness :
    (MeetingDataIngestor.ingestCycle noFail (fun _ => none) "not json" St.init).1 = St.init
    ∧ (MeetingDataIngestor.ingestCycle noFail (fun _ => none) "not json" St.init).2.isSome
        = true := by
  refine malformed_input_resilience noFail (fun _ => none) "not json" St.init ?_
  intro data hdata
  simp [MeetingDataIngestor.readAndParseCache] at hdata

namespace MeetingDataIngestor

theorem transcriptEntriesFor_congr {d1 d2 : Json}
    (ht : ∀ id, transcriptsVal d1 id = transcriptsVal d2 id) :
    transcriptEntriesFor d1 = transcriptEntriesFor d2 := by
  funext id
  unfold transcriptEntriesFor
  rw [ht id]

theorem processTemplates_congr {d1 d2 : Json}
    (hp : ∀ id, templatesVal d1 id = templatesVal d2 id) :
    processTemplates d1 = processTemplates d2 := by
  funext id st
  unfold processTemplates
  rw [hp id]

theorem processDocRest_congr {d1 d2 : Json}
    (ht : ∀ id, transcriptsVal d1 id = transcriptsVal d2 id)
    (hp : ∀ id, templatesVal d1 id = templatesVal d2 id) :
    processDocRest d1 = processDocRest d2 := by
  funext doc st
  unfold processDocRest
  rw [transcriptEntriesFor_congr ht, processTemplates_congr hp]

theorem processDoc_congr {d1 d2 : Json}
    (ht : ∀ id, transcriptsVal d1 id = transcriptsVal d2 id)
    (hp : ∀ id, templatesVal d1 id = templatesVal d2 id) (fail : Document → Bool) :
    processDoc fail d1 = processDoc fail d2 := by
  funext doc st
  unfold processDoc
  rw [processDocRest_congr ht hp]

theorem processDocs_congr {d1 d2 : Json}
    (ht : ∀ id, transcriptsVal d1 id = transcriptsVal d2 id)
    (hp : ∀ id, templatesVal d1 id = templatesVal d2 id) (fail : Document → Bool) :
    ∀ (l : List Document) (st : St), processDocs fail d1 l st = processDocs fail d2 l st := by
  intro l
  induction l with
  | nil => intro st; rfl
  | cons d ds ih =>
    intro st
    simp only [processDocs, processDoc_congr ht hp fail]
    cases processDoc fail d2 d st with
    | ok st' => exact ih st'
    | error e => rfl

theorem processChunks_congr {d1 d2 : Json}
    (ht : ∀ id, transcriptsVal d1 id = transcriptsVal d2 id)
    (hp : ∀ id, templatesVal d1 id = templatesVal d2 id) (fail : Document → Bool) :
    ∀ (cs : List (List Document)) (st : St),
      processChunks fail d1 cs st = processChunks fail d2 cs st := by
  intro cs
  induction cs with
  | nil => intro st; rfl
  | cons c cs ih =>
    intro st
    simp only [processChunks, processChunk, processDocs_congr ht hp fail]
    cases processDocs fail d2 c st with
    | ok st' => exact ih st'
    | error e => rfl

end MeetingDataIngestor

open MeetingDataIngestor in
/-- C8: a snapshot whose `documents` collection is an object keyed by id
and the snapshot carrying the same documents (the object's values, in
order) as an array — with identical transcripts and templates side
tables — produce identical results from identical starting states:
the same store state, and the same outcome. -/
theorem shape_normalization_equiv (fail : Document → Bool)
    (kvs : List (String × Json)) (ts tp : Json) (st : St) :
    processCache fail (mkSnapshot (Json.obj kvs) ts tp) st
      = processCache fail (mkSnapshot (Json.arr (kvs.map Prod.snd)) ts tp) st := by
  have ht : ∀ id, transcriptsVal (mkSnapshot (Json.obj kvs) ts tp) id
      = transcriptsVal (mkSnapshot (Json.arr (kvs.map Prod.snd)) ts tp) id := by
    intro id
    rfl
  have hp : ∀ id, templatesVal (mkSnapshot (Json.obj kvs) ts tp) id
      = templatesVal (mkSnapshot (Json.arr (kvs.map Prod.snd)) ts tp) id := by
    intro id
    rfl
  show processCache fail (mkSnapshot (Json.obj kvs) ts tp) st
      = processCache fail (mkSnapshot (Json.arr (kvs.map Prod.snd)) ts tp) st
  unfold processCache
  have h1 : docsFieldVal (mkSnapshot (Json.obj kvs) ts tp) = some (Json.obj kvs) := rfl
  have h2 : docsFieldVal (mkSnapshot (Json.arr (kvs.map Prod.snd)) ts tp)
      = some (Json.arr (kvs.map Prod.snd)) := rfl
  rw [h1, h2]
  simp only [jsTruthy]
  show processCacheDocs fail (mkSnapshot (Json.obj kvs) ts tp)
        ((normalizeDocuments (Json.obj kvs)).map toDocument) st
      = processCacheDocs fail (mkSnapshot (Json.arr (kvs.map Prod.snd)) ts tp)
        ((normalizeDocuments (Json.arr (kvs.map Prod.snd))).map toDocument) st
  have hnorm : normalizeDocuments (Json.obj kvs)
      = normalizeDocuments (Json.arr (kvs.map Prod.snd)) := rfl
  rw [hnorm]
  unfold processCacheDocs
  exact processChunks_congr ht hp fail _ st

/-! ## History claims -/

/-- Snapshot carrying the sample document's first state. -/
def exSnap1 : Json := mkSnapshot (Json.arr [docJson exDoc1]) Json.null Json.null

/-- Snapshot carrying the sample document's second state. -/
def exSnap2 : Json := mkSnapshot (Json.arr [docJson exDoc2]) Json.null Json.null

/-- State after ingesting the first snapshot into an empty store. -/
def exRun1 : St := (MeetingDataIngestor.processCache noFail exSnap1 St.init).1

/-- State after then ingesting the second snapshot. -/
def exRun2 : St := (MeetingDataIngestor.processCache noFail exSnap2 exRun1).1

set_option maxRecDepth 100000 in
/-- Counterexample to C2: the very first ingestion of `doc-123` leaves one
historical record referencing it (flagged `initial_creation`), not zero. -/
theorem first_ingestion_history_counterexample :
    ¬ ((HistoryTracker.getDocumentHistory exRun1.db "doc-123").length = 0)
    ∧ (HistoryTracker.getDocumentHistory exRun1.db "doc-123").length = 1 := by
  decide

/-- Amended C2: on the first-ever ingestion of a document (no stored
content hash), `trackDocumentHistory` is not a no-op — it reports the
pseudo-field `initial_creation`, stores the document's content hash, and
appends exactly one historical record whose columns are the incoming
document's fields. -/
theorem first_ingestion_writes_history (doc : Document) (st : St)
    (hid : doc.id ≠ "")
    (hnone : st.db.document_state_hashes.find? (fun r => r.document_id == doc.id) = none) :
    HistoryTracker.trackDocumentHistory doc st =
      (true,
       { st with
         db :=
           { st.db with
             document_state_hashes :=
               HistoryTracker.updateHash st.db.document_state_hashes doc.id
                 (HistoryTracker.getDocumentHash doc)
                 (jsonStringify (Json.arr [Json.str "initial_creation"])) st.clock,
             historical_documents :=
               st.db.historical_documents
                 ++ [HistoryTracker.historyRow ("uuid-" ++ toString st.uuidSeq) doc
                       st.clock] },
         uuidSeq := st.uuidSeq + 1,
         clock := st.clock + 1 }) := by
  unfold HistoryTracker.trackDocumentHistory
  rw [if_neg hid, hnone]
  rfl

/-- Witness for the amended C2 at the sample document over an empty store. -/
theorem first_ingestion_writes_history_witness :
    HistoryTracker.trackDocumentHistory exDoc1 St.init =
      (true,
       { St.init with
         db :=
           { St.init.db with
             document_state_hashes :=
               HistoryTracker.updateHash St.init.db.document_state_hashes exDoc1.id
                 (HistoryTracker.getDocumentHash exDoc1)
                 (jsonStringify (Json.arr [Json.str "initial_creation"])) St.init.clock,
             historical_documents :=
               St.init.db.historical_documents
                 ++ [HistoryTracker.historyRow ("uuid-" ++ toString St.init.uuidSeq) exDoc1
                       St.init.clock] },
         uuidSeq := St.init.uuidSeq + 1,
         clock := St.init.clock + 1 }) :=
  first_ingestion_writes_history exDoc1 St.init (by decide) (by decide)

set_option maxRecDepth 100000 in
/-- Counterexample to C1: before the second ingestion the persisted row of
`doc-123` holds the first-ingested title; after the second ingestion its
history holds two records, not one, and the newest record carries the
*incoming* second state, not the previously persisted fields. -/
theorem history_record_counterexample :
    ((exRun1.db.documents.find? (fun r => r.id == "doc-123")).map
        (fun r => r.title)) = some "Initial Meeting"
    ∧ ¬ ((HistoryTracker.getDocumentHistory exRun2.db "doc-123").length = 1)
    ∧ (HistoryTracker.getDocumentHistory exRun2.db "doc-123").length = 2
    ∧ ((HistoryTracker.getDocumentHistory exRun2.db "doc-123").head?.map
        (fun r => r.title)) = some "Updated Meeting" := by
  decide

/-- Amended C1: when a document with a stored content hash is re-ingested
with a different content hash while a persisted row exists, the history
recorder appends exactly one historical record per such ingestion — and
that record copies the **incoming** document's fields (`historyRow` binds
`doc`'s columns), not the persisted row read back by primary key; after a
second changed ingestion the history therefore holds two records, the
older one equal to the first-ingested state. -/
theorem history_record_copies_incoming (doc : Document) (st : St)
    (r : DocumentStateHashRow) (lastDoc : DocumentRow)
    (hid : doc.id ≠ "")
    (hfind : st.db.document_state_hashes.find? (fun x => x.document_id == doc.id) = some r)
    (hhash : r.content_hash ≠ HistoryTracker.getDocumentHash doc)
    (hdoc : HistoryTracker.getDocumentFromId st.db doc.id = some lastDoc) :
    (HistoryTracker.trackDocumentHistory doc st).1 = true
    ∧ (HistoryTracker.trackDocumentHistory doc st).2.db.historical_documents
        = st.db.historical_documents
          ++ [HistoryTracker.historyRow ("uuid-" ++ toString st.uuidSeq) doc st.clock] := by
  have hempty : ∀ xs : List String,
      (xs ++ ["public", "valid_meeting", "has_shareable_link",
              "privacy_mode_enabled"]).isEmpty = false := by
    intro xs
    cases xs <;> rfl
  have hfields : HistoryTracker.detectChangedFields st.db doc (some r.content_hash) =
      (if doc.title ≠ lastDoc.title then ["title"] else [])
        ++ (if doc.notes_markdown ≠ lastDoc.notes_markdown then ["notes_markdown"] else [])
        ++ (if doc.notes_plain ≠ lastDoc.notes_plain then ["notes_plain"] else [])
        ++ (if doc.updated_at ≠ lastDoc.updated_at then ["updated_at"] else [])
        ++ (if doc.deleted_at ≠ lastDoc.deleted_at then ["deleted_at"] else [])
        ++ ["public", "valid_meeting", "has_shareable_link", "privacy_mode_enabled"] := by
    simp only [HistoryTracker.detectChangedFields, hdoc]
    rw [if_neg hhash]
  unfold HistoryTracker.trackDocumentHistory
  rw [if_neg hid, hfind]
  simp only [Option.map_some', hfields, hempty]
  simp [freshUuid]

/-- Concrete state in which `doc-123` has a persisted row and content hash
from its first-ingested state. -/
def exStHash : St :=
  { St.init with
    db :=
      { DB.empty with
        documents := [exDoc1.toRow],
        document_state_hashes :=
          [{ document_id := "doc-123",
             content_hash := HistoryTracker.getDocumentHash exDoc1,
             last_change := 0,
             changed_fields := jsonStringify (Json.arr [Json.str "initial_creation"]) }] } }

/-- Witness for the amended C1: re-ingesting the changed sample document
over its persisted first state appends one record copying the incoming
fields. -/
theorem history_record_copies_incoming_witness :
    (HistoryTracker.trackDocumentHistory exDoc2 exStHash).1 = true
    ∧ (HistoryTracker.trackDocumentHistory exDoc2 exStHash).2.db.historical_documents
        = exStHash.db.historical_documents
          ++ [HistoryTracker.historyRow ("uuid-" ++ toString exStHash.uuidSeq) exDoc2
                exStHash.clock] :=
  history_record_copies_incoming exDoc2 exStHash
    { document_id := "doc-123", content_hash := HistoryTracker.getDocumentHash exDoc1,
      last_change := 0,
      changed_fields := jsonStringify (Json.arr [Json.str "initial_creation"]) }
    exDoc1.toRow (by decide) (by decide) (by decide) (by decide)

/-! ## Fingerprint determinism (C6) -/

/-- Counterexample to C6: two entities carrying identical fields in
different insertion order (the second field list is the reverse of the
first) serialise differently under `JSON.stringify` and receive different
xxhash64 fingerprints — fingerprinting is not representation-independent. -/
theorem fingerprint_order_counterexample :
    ([("b", Json.num 2), ("a", Json.num 1)] : List (String × Json))
        = ([("a", Json.num 1), ("b", Json.num 2)] : List (String × Json)).reverse
    ∧ HashUtil.getHash (jsonStringify (Json.obj [("a", Json.num 1), ("b", Json.num 2)]))
        ≠ HashUtil.getHash (jsonStringify (Json.obj [("b", Json.num 2), ("a", Json.num 1)])) :=
  ⟨rfl, by decide⟩

/-- Amended C6: fingerprint computation is deterministic — identical
serialised input (in particular, identical fields in identical order)
always yields the identical fingerprint, across runs — but it is *not*
insertion-order independent: there are field lists whose permutation
changes the fingerprint. -/
theorem fingerprint_deterministic_not_order_free :
    (∀ j₁ j₂ : Json, jsonStringify j₁ = jsonStringify j₂ →
      HashUtil.getHash (jsonStringify j₁) = HashUtil.getHash (jsonStringify j₂))
    ∧ (∀ d₁ d₂ : Document, docJson d₁ = docJson d₂ → docFingerprint d₁ = docFingerprint d₂)
    ∧ (∃ fields : List (String × Json),
        HashUtil.getHash (jsonStringify (Json.obj fields))
          ≠ HashUtil.getHash (jsonStringify (Json.obj fields.reverse))) := by
  refine ⟨fun j₁ j₂ h => by rw [h], fun d₁ d₂ h => ?_, ?_⟩
  · unfold docFingerprint
    rw [h]
  · exact ⟨[("a", Json.num 1), ("b", Json.num 2)], by decide⟩

/-- Witness for the amended C6: determinism instantiated on the sample
document against itself. -/
theorem fingerprint_deterministic_witness :
    docFingerprint exDoc1 = docFingerprint exDoc1 :=
  fingerprint_deterministic_not_order_free.2.1 exDoc1 exDoc1 rfl

/-! ## Batch atomicity (C4) -/

namespace MeetingDataIngestor

theorem processChunk_error_db (fail : Document → Bool) (data : Json)
    (chunk : List Document) (st : St) (e : IngestError) (st' : St)
    (h : processChunk fail data chunk st = .error (e, st')) : st'.db = st.db := by
  unfold processChunk at h
  cases hd : processDocs fail data chunk st with
  | ok stN => rw [hd] at h; exact absurd h (by simp)
  | error p =>
    obtain ⟨e0, stE⟩ := p
    rw [hd] at h
    injection h with h1
    injection h1 with h2 h3
    rw [← h3]

theorem processChunks_error_decomp (fail : Document → Bool) (data : Json) :
    ∀ (cs : List (List Document)) (st stF : St) (e : IngestError),
      processChunks fail data cs st = (stF, some e) →
      ∃ (pre : List (List Document)) (c : List Document) (post : List (List Document))
        (st₁ st₂ : St),
        cs = pre ++ c :: post
        ∧ processChunks fail data pre st = (st₁, none)
        ∧ processChunk fail data c st₁ = .error (e, st₂)
        ∧ stF = st₂
        ∧ stF.db = st₁.db := by
  intro cs
  induction cs with
  | nil =>
    intro st stF e h
    exact absurd h (by simp [processChunks])
  | cons c cs ih =>
    intro st stF e h
    cases hc : processChunk fail data c st with
    | ok stN =>
      simp only [processChunks, hc] at h
      obtain ⟨pre, c', post, st₁, st₂, hcs, hpre, hfailc, hstF, hdb⟩ := ih stN stF e h
      refine ⟨c :: pre, c', post, st₁, st₂, by simp [hcs], ?_, hfailc, hstF, hdb⟩
      simp only [processChunks, hc]
      exact hpre
    | error p =>
      obtain ⟨e0, stE⟩ := p
      simp only [processChunks, hc] at h
      injection h with h1 h2
      injection h2 with h2
      subst h1
      subst h2
      exact ⟨[], c, cs, st, stE, rfl, rfl, hc, rfl,
             processChunk_error_db fail data c st e0 stE hc⟩

end MeetingDataIngestor

open MeetingDataIngestor in
/-- C4: batches are independent units of atomicity.  (i) A failure while
processing any document of a chunk rolls the store back to the chunk's
start — earlier documents of that chunk are never left partially
committed.  (ii) When the chunk loop reports an error, the batches are
split into a fully committed prefix, the failing batch, and unprocessed
batches: the final store equals the store after the committed prefix
(committed batches are kept, never retried or rolled back), and the
failing batch contributed nothing. -/
theorem batch_atomicity :
    (∀ (fail : Document → Bool) (data : Json) (chunk : List Document) (st : St)
        (e : IngestError) (st' : St),
      processChunk fail data chunk st = .error (e, st') → st'.db = st.db)
    ∧ (∀ (fail : Document → Bool) (data : Json) (docs : List Document) (st stF : St)
        (e : IngestError),
      processCacheDocs fail data docs st = (stF, some e) →
      ∃ (pre : List (List Document)) (c : List Document) (post : List (List Document))
        (st₁ st₂ : St),
        chunkList docs = pre ++ c :: post
        ∧ processChunks fail data pre st = (st₁, none)
        ∧ processChunk fail data c st₁ = .error (e, st₂)
        ∧ stF = st₂
        ∧ stF.db = st₁.db) :=
  ⟨processChunk_error_db,
   fun fail data docs st stF e h =>
     processChunks_error_decomp fail data (chunkList docs) st stF e h⟩

set_option maxRecDepth 100000 in
open MeetingDataIngestor in
/-- Witness for C4: a two-document batch whose second document's upsert
fails leaves the initial (empty) store committed state untouched. -/
theorem batch_atomicity_witness :
    ∃ (pre : List (List Document)) (c : List Document) (post : List (List Document))
      (st₁ st₂ : St),
      chunkList [exDoc1, exBadDoc] = pre ++ c :: post
      ∧ processChunks exFail Json.null pre St.init = (st₁, none)
      ∧ processChunk exFail Json.null c st₁ = .error (.upsertFailure "bad-1", st₂)
      ∧ (processCacheDocs exFail Json.null [exDoc1, exBadDoc] St.init).1 = st₂
      ∧ (processCacheDocs exFail Json.null [exDoc1, exBadDoc] St.init).1.db = st₁.db :=
  batch_atomicity.2 exFail Json.null [exDoc1, exBadDoc] St.init _
    (.upsertFailure "bad-1") (by decide)

/-! ## Idempotence of re-ingestion (C3)

The second ingestion of an unchanged snapshot is a no-op for documents,
calendar events, people and transcripts — but not for template artifacts,
which the pipeline upserts unconditionally. -/

/-- Inner transcript-hash lookup, keyed by document then entry. -/
def transcriptHashAt (tr : LastKnownState) (docId k : String) : Option String :=
  lookupA ((lookupA tr.transcriptHashes docId).getD []) k

/-- The fingerprint store knows the current fingerprints of a document,
its calendar event, and its transcript entries. -/
def trackedDoc (data : Json) (d : Document) (tr : LastKnownState) : Prop :=
  lookupA tr.documentHashes d.id = some (docFingerprint d)
  ∧ (∀ ev, d.google_calendar_event = some ev →
      lookupA tr.calendarHashes d.id =
        some (eventFingerprint { ev with document_id := some d.id }))
  ∧ ∀ e ∈ MeetingDataIngestor.transcriptEntriesFor data d.id,
      transcriptHashAt tr d.id e.id = some (transcriptFingerprint e)

/-- `st'` extends `st` without touching the fingerprint store, the
document/calendar/person/transcript upsert counters, or the history log
(only template artifacts may have been written). -/
def QuietExt (st st' : St) : Prop :=
  st'.track = st.track
  ∧ st'.counts.documents = st.counts.documents
  ∧ st'.counts.calendar_events = st.counts.calendar_events
  ∧ st'.counts.people = st.counts.people
  ∧ st'.counts.transcript_entries = st.counts.transcript_entries
  ∧ st'.db.historical_documents = st.db.historical_documents

theorem QuietExt.rfl (st : St) : QuietExt st st :=
  ⟨Eq.refl _, Eq.refl _, Eq.refl _, Eq.refl _, Eq.refl _, Eq.refl _⟩

theorem QuietExt.trans {s1 s2 s3 : St} (h1 : QuietExt s1 s2) (h2 : QuietExt s2 s3) :
    QuietExt s1 s3 :=
  ⟨h2.1.trans h1.1, h2.2.1.trans h1.2.1, h2.2.2.1.trans h1.2.2.1,
   h2.2.2.2.1.trans h1.2.2.2.1, h2.2.2.2.2.1.trans h1.2.2.2.2.1,
   h2.2.2.2.2.2.trans h1.2.2.2.2.2⟩

namespace MeetingDataIngestor

theorem applyTemplateUpsert_quiet (p : PanelTemplate) (st : St) :
    QuietExt st (applyTemplateUpsert p st) :=
  ⟨Eq.refl _, Eq.refl _, Eq.refl _, Eq.refl _, Eq.refl _, Eq.refl _⟩

theorem applySectionUpsert_quiet (s : TemplateSection) (st : St) :
    QuietExt st (applySectionUpsert s st) :=
  ⟨Eq.refl _, Eq.refl _, Eq.refl _, Eq.refl _, Eq.refl _, Eq.refl _⟩

theorem applyPanelUpsert_quiet (p : DocumentPanel) (st : St) :
    QuietExt st (applyPanelUpsert p st) :=
  ⟨Eq.refl _, Eq.refl _, Eq.refl _, Eq.refl _, Eq.refl _, Eq.refl _⟩

theorem foldl_quiet {β : Type} (f : β → St → St) (hf : ∀ x s, QuietExt s (f x s)) :
    ∀ (l : List β) (st : St), QuietExt st (l.foldl (fun s x => f x s) st) := by
  intro l
  induction l with
  | nil => intro st; exact QuietExt.rfl st
  | cons x xs ih =>
    intro st
    exact QuietExt.trans (hf x st) (ih (f x st))

theorem processPanelTemplates_quiet (tr : Json) (st : St) :
    QuietExt st (processPanelTemplates tr st) := by
  unfold processPanelTemplates
  cases getField tr "panel_templates" with
  | none => exact QuietExt.rfl st
  | some pt =>
    by_cases hb : jsTruthy pt = true
    · simp only [hb, if_true]
      exact foldl_quiet _ applyTemplateUpsert_quiet _ st
    · simp only [Bool.not_eq_true] at hb
      simp only [hb, Bool.false_eq_true, if_false]
      exact QuietExt.rfl st

theorem processTemplateSections_quiet (tr : Json) (st : St) :
    QuietExt st (processTemplateSections tr st) := by
  unfold processTemplateSections
  cases getField tr "template_sections" with
  | none => exact QuietExt.rfl st
  | some ts =>
    by_cases hb : jsTruthy ts = true
    · simp only [hb, if_true]
      exact foldl_quiet _ applySectionUpsert_quiet _ st
    · simp only [Bool.not_eq_true] at hb
      simp only [hb, Bool.false_eq_true, if_false]
      exact QuietExt.rfl st

theorem processDocumentPanels_quiet (tr : Json) (docId : String) (st : St) :
    QuietExt st (processDocumentPanels tr docId st) := by
  unfold processDocumentPanels
  cases getField tr "document_panels" with
  | none => exact QuietExt.rfl st
  | some dp =>
    by_cases hb : jsTruthy dp = true
    · simp only [hb, if_true]
      exact foldl_quiet _ (fun p s => applyPanelUpsert_quiet _ s) _ st
    · simp only [Bool.not_eq_true] at hb
      simp only [hb, Bool.false_eq_true, if_false]
      exact QuietExt.rfl st

theorem processTemplates_quiet (data : Json) (docId : String) (st : St) :
    QuietExt st (processTemplates data docId st) := by
  unfold processTemplates
  cases templatesVal data docId with
  | none => exact QuietExt.rfl st
  | some tr =>
    by_cases htr : jsTruthy tr = true
    · simp only [htr, if_true]
      exact QuietExt.trans (processPanelTemplates_quiet tr st)
        (QuietExt.trans (processTemplateSections_quiet tr _)
          (processDocumentPanels_quiet tr docId _))
    · simp only [Bool.not_eq_true] at htr
      simp only [htr, Bool.false_eq_true, if_false]
      exact QuietExt.rfl st

end MeetingDataIngestor

namespace StateTrackingService

theorem hasDocumentChanged_track (d : Document) (tr : LastKnownState) :
    lookupA (hasDocumentChanged d tr).2.documentHashes d.id = some (docFingerprint d)
    ∧ (∀ k, k ≠ d.id → lookupA (hasDocumentChanged d tr).2.documentHashes k
        = lookupA tr.documentHashes k)
    ∧ (hasDocumentChanged d tr).2.calendarHashes = tr.calendarHashes
    ∧ (hasDocumentChanged d tr).2.transcriptHashes = tr.transcriptHashes
    ∧ (hasDocumentChanged d tr).2.personHashes = tr.personHashes := by
  simp only [hasDocumentChanged]
  by_cases h : lookupA tr.documentHashes d.id = some (docFingerprint d)
  · rw [if_pos h]
    exact ⟨h, fun k _ => rfl, rfl, rfl, rfl⟩
  · rw [if_neg h]
    exact ⟨lookupA_setA_self _ _ _, fun k hk => lookupA_setA_ne _ _ _ _ hk, rfl, rfl, rfl⟩

theorem hasCalendarEventChanged_track (docId : String) (e : CalendarEvent)
    (tr : LastKnownState) :
    lookupA (hasCalendarEventChanged docId e tr).2.calendarHashes docId
        = some (eventFingerprint e)
    ∧ (∀ k, k ≠ docId → lookupA (hasCalendarEventChanged docId e tr).2.calendarHashes k
        = lookupA tr.calendarHashes k)
    ∧ (hasCalendarEventChanged docId e tr).2.documentHashes = tr.documentHashes
    ∧ (hasCalendarEventChanged docId e tr).2.transcriptHashes = tr.transcriptHashes
    ∧ (hasCalendarEventChanged docId e tr).2.personHashes = tr.personHashes := by
  simp only [hasCalendarEventChanged]
  by_cases h : lookupA tr.calendarHashes docId = some (eventFingerprint e)
  · rw [if_pos h]
    exact ⟨h, fun k _ => rfl, rfl, rfl, rfl⟩
  · rw [if_neg h]
    exact ⟨lookupA_setA_self _ _ _, fun k hk => lookupA_setA_ne _ _ _ _ hk, rfl, rfl, rfl⟩

theorem hasTranscriptChanged_track (docId : String) (e : TranscriptEntry)
    (tr : LastKnownState) :
    transcriptHashAt (hasTranscriptChanged docId e tr).2 docId e.id
        = some (transcriptFingerprint e)
    ∧ (∀ k, k ≠ e.id → transcriptHashAt (hasTranscriptChanged docId e tr).2 docId k
        = transcriptHashAt tr docId k)
    ∧ (∀ dk, dk ≠ docId → lookupA (hasTranscriptChanged docId e tr).2.transcriptHashes dk
        = lookupA tr.transcriptHashes dk)
    ∧ (hasTranscriptChanged docId e tr).2.documentHashes = tr.documentHashes
    ∧ (hasTranscriptChanged docId e tr).2.calendarHashes = tr.calendarHashes
    ∧ (hasTranscriptChanged docId e tr).2.personHashes = tr.personHashes := by
  simp only [hasTranscriptChanged]
  by_cases h : lookupA ((lookupA tr.transcriptHashes docId).getD []) e.id
      = some (transcriptFingerprint e)
  · rw [if_pos h]
    exact ⟨h, fun k _ => rfl, fun dk _ => rfl, rfl, rfl, rfl⟩
  · rw [if_neg h]
    refine ⟨?_, ?_, ?_, rfl, rfl, rfl⟩
    · unfold transcriptHashAt
      rw [lookupA_setA_self]
      exact lookupA_setA_self _ _ _
    · intro k hk
      unfold transcriptHashAt
      rw [lookupA_setA_self]
      exact lookupA_setA_ne _ _ _ _ hk
    · intro dk hdk
      exact lookupA_setA_ne _ _ _ _ hdk

theorem hasPersonChanged_track (docId : String) (p : Person) (tr : LastKnownState) :
    (hasPersonChanged docId p tr).2.documentHashes = tr.documentHashes
    ∧ (hasPersonChanged docId p tr).2.calendarHashes = tr.calendarHashes
    ∧ (hasPersonChanged docId p tr).2.transcriptHashes = tr.transcriptHashes := by
  simp only [hasPersonChanged]
  by_cases h : lookupA ((lookupA tr.personHashes docId).getD []) p.id
      = some (personFingerprint p)
  · rw [if_pos h]
    exact ⟨rfl, rfl, rfl⟩
  · rw [if_neg h]
    exact ⟨rfl, rfl, rfl⟩

end StateTrackingService

namespace HistoryTracker

theorem trackDocumentHistory_track (doc : Document) (st : St) :
    (trackDocumentHistory doc st).2.track = st.track := by
  unfold trackDocumentHistory
  by_cases h : doc.id = ""
  · rw [if_pos h]
  · rw [if_neg h]
    simp only [freshUuid]
    split <;> rfl

theorem trackDocumentHistory_counts (doc : Document) (st : St) :
    (trackDocumentHistory doc st).2.counts = st.counts := by
  unfold trackDocumentHistory
  by_cases h : doc.id = ""
  · rw [if_pos h]
  · rw [if_neg h]
    simp only [freshUuid]
    split <;> rfl

end HistoryTracker

namespace MeetingDataIngestor

theorem transcriptFold_id (docId : String) :
    ∀ (entries : List TranscriptEntry) (st : St),
      (∀ e ∈ entries, transcriptHashAt st.track docId e.id = some (transcriptFingerprint e)) →
      entries.foldl (processTranscriptEntry docId) st = st := by
  intro entries
  induction entries with
  | nil => intro st _; rfl
  | cons e es ih =>
    intro st hinv
    have he := hinv e (by simp)
    unfold transcriptHashAt at he
    have hstep : processTranscriptEntry docId st e = st := by
      unfold processTranscriptEntry
      have hc : StateTrackingService.hasTranscriptChanged docId e st.track
          = (false, st.track) := by
        simp only [StateTrackingService.hasTranscriptChanged]
        rw [if_pos he]
      rw [hc]
      rfl
    rw [List.foldl_cons, hstep]
    exact ih st (fun x hx => hinv x (by simp [hx]))

theorem processCalendar_id (d : Document) (st : St)
    (hcal : ∀ ev, d.google_calendar_event = some ev →
      lookupA st.track.calendarHashes d.id =
        some (eventFingerprint { ev with document_id := some d.id })) :
    processCalendar d st = st := by
  unfold processCalendar
  cases hev : d.google_calendar_event with
  | none => rfl
  | some ev =>
    have hce : StateTrackingService.hasCalendarEventChanged d.id
        { ev with document_id := some d.id } st.track = (false, st.track) := by
      simp only [StateTrackingService.hasCalendarEventChanged]
      rw [if_pos (hcal ev hev)]
    simp only [hce]
    rfl

theorem processDoc_quiet (fail : Document → Bool) (data : Json) (d : Document) (st : St)
    (hInv : trackedDoc data d st.track) :
    processDoc fail data d st = .ok (processTemplates data d.id st) := by
  have hrest : processDocRest data d st = processTemplates data d.id st := by
    unfold processDocRest
    rw [processCalendar_id d st hInv.2.1, transcriptFold_id d.id _ st hInv.2.2]
  have hdc : StateTrackingService.hasDocumentChanged d st.track = (false, st.track) := by
    simp only [StateTrackingService.hasDocumentChanged]
    rw [if_pos hInv.1]
  unfold processDoc
  rw [hdc]
  show Except.ok (processDocRest data d { st with track := st.track })
      = Except.ok (processTemplates data d.id st)
  rw [show ({ st with track := st.track } : St) = st from rfl, hrest]

end MeetingDataIngestor

namespace MeetingDataIngestor

theorem processAttendee_track_eq (docId : String) (a : CalendarAttendee) (st : St) :
    (processAttendee docId a st).track
      = (StateTrackingService.hasPersonChanged docId
          (buildPerson docId ("uuid-" ++ toString st.uuidSeq) a) st.track).2 := by
  unfold processAttendee
  simp only [freshUuid]
  split <;> rfl

theorem processAttendee_maps (docId : String) (a : CalendarAttendee) (st : St) :
    (processAttendee docId a st).track.documentHashes = st.track.documentHashes
    ∧ (processAttendee docId a st).track.calendarHashes = st.track.calendarHashes
    ∧ (processAttendee docId a st).track.transcriptHashes = st.track.transcriptHashes := by
  rw [processAttendee_track_eq]
  exact StateTrackingService.hasPersonChanged_track docId _ st.track

theorem attendeesFold_maps (docId : String) :
    ∀ (atts : List CalendarAttendee) (st : St),
      ((atts.foldl (fun s a => processAttendee docId a s) st).track.documentHashes
          = st.track.documentHashes)
      ∧ ((atts.foldl (fun s a => processAttendee docId a s) st).track.calendarHashes
          = st.track.calendarHashes)
      ∧ ((atts.foldl (fun s a => processAttendee docId a s) st).track.transcriptHashes
          = st.track.transcriptHashes) := by
  intro atts
  induction atts with
  | nil => intro st; exact ⟨rfl, rfl, rfl⟩
  | cons a as ih =>
    intro st
    obtain ⟨h1, h2, h3⟩ := processAttendee_maps docId a st
    obtain ⟨g1, g2, g3⟩ := ih (processAttendee docId a st)
    exact ⟨g1.trans h1, g2.trans h2, g3.trans h3⟩

theorem processAttendees_maps (docId : String) (eventObj : CalendarEvent) (stU : St) :
    (processAttendees docId eventObj stU).track.documentHashes = stU.track.documentHashes
    ∧ (processAttendees docId eventObj stU).track.calendarHashes = stU.track.calendarHashes
    ∧ (processAttendees docId eventObj stU).track.transcriptHashes
        = stU.track.transcriptHashes := by
  unfold processAttendees
  cases eventObj.attendees with
  | none => exact ⟨rfl, rfl, rfl⟩
  | some atts => exact attendeesFold_maps docId atts stU

theorem processCalendar_eq_some (d : Document) (ev : CalendarEvent) (st : St)
    (hev : d.google_calendar_event = some ev) :
    processCalendar d st =
      (if (StateTrackingService.hasCalendarEventChanged d.id
            { ev with document_id := some d.id } st.track).1 then
        processAttendees d.id { ev with document_id := some d.id }
          (applyCalendarUpsert { ev with document_id := some d.id }
            { st with
              track := (StateTrackingService.hasCalendarEventChanged d.id
                { ev with document_id := some d.id } st.track).2 })
      else
        { st with
          track := (StateTrackingService.hasCalendarEventChanged d.id
            { ev with document_id := some d.id } st.track).2 }) := by
  unfold processCalendar
  rw [hev]

theorem processCalendar_track (d : Document) (st : St) :
    (processCalendar d st).track.documentHashes = st.track.documentHashes
    ∧ (∀ ev, d.google_calendar_event = some ev →
        lookupA (processCalendar d st).track.calendarHashes d.id
          = some (eventFingerprint { ev with document_id := some d.id }))
    ∧ (∀ k, k ≠ d.id → lookupA (processCalendar d st).track.calendarHashes k
        = lookupA st.track.calendarHashes k)
    ∧ (processCalendar d st).track.transcriptHashes = st.track.transcriptHashes := by
  cases hev : d.google_calendar_event with
  | none =>
    unfold processCalendar
    rw [hev]
    refine ⟨rfl, ?_, fun k _ => rfl, rfl⟩
    intro ev h
    exact Option.noConfusion h
  | some ev =>
    obtain ⟨c1, c2, c3, c4, c5⟩ :=
      StateTrackingService.hasCalendarEventChanged_track d.id
        { ev with document_id := some d.id } st.track
    rw [processCalendar_eq_some d ev st hev]
    split
    · -- changed: upsert plus attendees
      obtain ⟨a1, a2, a3⟩ := processAttendees_maps d.id { ev with document_id := some d.id }
        (applyCalendarUpsert { ev with document_id := some d.id }
          { st with
            track := (StateTrackingService.hasCalendarEventChanged d.id
              { ev with document_id := some d.id } st.track).2 })
      refine ⟨a1.trans c3, ?_, ?_, a3.trans c4⟩
      · intro ev' hev'
        obtain rfl : ev' = ev := (Option.some.inj hev').symm
        rw [a2]
        exact c1
      · intro k hk
        rw [a2]
        exact c2 k hk
    · -- unchanged: the stored fingerprint was already current
      refine ⟨c3, ?_, fun k hk => c2 k hk, c4⟩
      intro ev' hev'
      obtain rfl : ev' = ev := (Option.some.inj hev').symm
      exact c1

theorem processTranscriptEntry_track_eq (docId : String) (st : St) (e : TranscriptEntry) :
    (processTranscriptEntry docId st e).track
      = (StateTrackingService.hasTranscriptChanged docId e st.track).2 := by
  unfold processTranscriptEntry
  split
  rename_i changed tr heq
  rw [heq]
  split <;> rfl

theorem transcriptFold_track (docId : String) :
    ∀ (entries : List TranscriptEntry) (st : St),
      entries.Pairwise (fun a b => a.id ≠ b.id) →
      (∀ e ∈ entries,
        transcriptHashAt (entries.foldl (processTranscriptEntry docId) st).track docId e.id
          = some (transcriptFingerprint e))
      ∧ (∀ k, (∀ e ∈ entries, k ≠ e.id) →
        transcriptHashAt (entries.foldl (processTranscriptEntry docId) st).track docId k
          = transcriptHashAt st.track docId k)
      ∧ (entries.foldl (processTranscriptEntry docId) st).track.documentHashes
          = st.track.documentHashes
      ∧ (entries.foldl (processTranscriptEntry docId) st).track.calendarHashes
          = st.track.calendarHashes
      ∧ (∀ dk, dk ≠ docId →
        lookupA (entries.foldl (processTranscriptEntry docId) st).track.transcriptHashes dk
          = lookupA st.track.transcriptHashes dk) := by
  intro entries
  induction entries with
  | nil =>
    intro st _
    refine ⟨?_, fun k _ => rfl, rfl, rfl, fun dk _ => rfl⟩
    intro e he
    exact absurd he (List.not_mem_nil e)
  | cons e es ih =>
    intro st hpw
    have hpwTail := (List.pairwise_cons.mp hpw).2
    have hheard := (List.pairwise_cons.mp hpw).1
    obtain ⟨t1, t2, t3, t4, t5, t6⟩ :=
      StateTrackingService.hasTranscriptChanged_track docId e st.track
    have hstep : (processTranscriptEntry docId st e).track
        = (StateTrackingService.hasTranscriptChanged docId e st.track).2 :=
      processTranscriptEntry_track_eq docId st e
    obtain ⟨g1, g2, g3, g4, g5⟩ := ih (processTranscriptEntry docId st e) hpwTail
    rw [List.foldl_cons]
    refine ⟨?_, ?_, ?_, ?_, ?_⟩
    · intro x hx
      rcases List.mem_cons.mp hx with hxe | hxes
      · subst hxe
        rw [g2 x.id (fun e' he' => hheard e' he')]
        rw [hstep]
        exact t1
      · exact g1 x hxes
    · intro k hk
      rw [g2 k (fun e' he' => hk e' (by simp [he']))]
      rw [hstep]
      exact t2 k (hk e (by simp))
    · rw [g3, hstep]
      exact t4
    · rw [g4, hstep]
      exact t5
    · intro dk hdk
      rw [g5 dk hdk, hstep]
      exact t3 dk hdk

end MeetingDataIngestor

namespace MeetingDataIngestor

theorem processDocRest_track_effect (data : Json) (d : Document) (stX : St)
    (hEnt : (transcriptEntriesFor data d.id).Pairwise (fun a b => a.id ≠ b.id)) :
    (processDocRest data d stX).track.documentHashes = stX.track.documentHashes
    ∧ (∀ ev, d.google_calendar_event = some ev →
        lookupA (processDocRest data d stX).track.calendarHashes d.id
          = some (eventFingerprint { ev with document_id := some d.id }))
    ∧ (∀ k, k ≠ d.id → lookupA (processDocRest data d stX).track.calendarHashes k
        = lookupA stX.track.calendarHashes k)
    ∧ (∀ e ∈ transcriptEntriesFor data d.id,
        transcriptHashAt (processDocRest data d stX).track d.id e.id
          = some (transcriptFingerprint e))
    ∧ (∀ dk, dk ≠ d.id → lookupA (processDocRest data d stX).track.transcriptHashes dk
        = lookupA stX.track.transcriptHashes dk) := by
  obtain ⟨c1, c2, c3, c4⟩ := processCalendar_track d stX
  obtain ⟨g1, g2, g3, g4, g5⟩ :=
    transcriptFold_track d.id (transcriptEntriesFor data d.id) (processCalendar d stX) hEnt
  have htm : (processDocRest data d stX).track
      = ((transcriptEntriesFor data d.id).foldl (processTranscriptEntry d.id)
          (processCalendar d stX)).track := by
    unfold processDocRest
    exact (processTemplates_quiet data d.id _).1
  refine ⟨?_, ?_, ?_, ?_, ?_⟩
  · rw [htm, g3]
    exact c1
  · intro ev hev
    rw [htm, g4]
    exact c2 ev hev
  · intro k hk
    rw [htm, g4]
    exact c3 k hk
  · intro e he
    rw [htm]
    exact g1 e he
  · intro dk hdk
    rw [htm, g5 dk hdk, c4]

theorem trackedDoc_of_frame (data : Json) (d : Document) (tr1 tr2 : LastKnownState)
    (h : trackedDoc data d tr1)
    (h1 : lookupA tr2.documentHashes d.id = lookupA tr1.documentHashes d.id)
    (h2 : lookupA tr2.calendarHashes d.id = lookupA tr1.calendarHashes d.id)
    (h3 : lookupA tr2.transcriptHashes d.id = lookupA tr1.transcriptHashes d.id) :
    trackedDoc data d tr2 := by
  refine ⟨h1.trans h.1, fun ev hev => h2.trans (h.2.1 ev hev), fun e he => ?_⟩
  have := h.2.2 e he
  unfold transcriptHashAt at this ⊢
  rw [h3]
  exact this

theorem processDoc_track_effect (fail : Document → Bool) (data : Json) (d : Document)
    (st st' : St)
    (hEnt : (transcriptEntriesFor data d.id).Pairwise (fun a b => a.id ≠ b.id))
    (h : processDoc fail data d st = .ok st') :
    trackedDoc data d st'.track
    ∧ ∀ k, k ≠ d.id →
        lookupA st'.track.documentHashes k = lookupA st.track.documentHashes k
        ∧ lookupA st'.track.calendarHashes k = lookupA st.track.calendarHashes k
        ∧ lookupA st'.track.transcriptHashes k = lookupA st.track.transcriptHashes k := by
  obtain ⟨d1, d2, d3, d4, d5⟩ := StateTrackingService.hasDocumentChanged_track d st.track
  -- characterise the successor state: processDocRest applied to a state whose
  -- track component is the updated fingerprint store
  have main : ∀ stX : St,
      stX.track = (StateTrackingService.hasDocumentChanged d st.track).2 →
      st' = processDocRest data d stX →
      trackedDoc data d st'.track
      ∧ ∀ k, k ≠ d.id →
          lookupA st'.track.documentHashes k = lookupA st.track.documentHashes k
          ∧ lookupA st'.track.calendarHashes k = lookupA st.track.calendarHashes k
          ∧ lookupA st'.track.transcriptHashes k = lookupA st.track.transcriptHashes k := by
    intro stX htrX hst'
    subst hst'
    obtain ⟨r1, r2, r3, r4, r5⟩ := processDocRest_track_effect data d stX hEnt
    constructor
    · refine ⟨?_, r2, r4⟩
      rw [r1, htrX]
      exact d1
    · intro k hk
      refine ⟨?_, ?_, ?_⟩
      · rw [r1, htrX]
        exact d2 k hk
      · rw [r3 k hk, htrX, d3]
      · rw [r5 k hk, htrX, d4]
  unfold processDoc at h
  split at h
  rename_i changed tr heq
  have htr : (StateTrackingService.hasDocumentChanged d st.track).2 = tr := by rw [heq]
  cases changed with
  | false =>
    simp only [Bool.false_eq_true, if_false, Except.ok.injEq] at h
    refine main { st with track := tr } ?_ h.symm
    exact htr.symm
  | true =>
    simp only [if_true] at h
    split at h
    · exact absurd h (by simp)
    · simp only [Except.ok.injEq] at h
      refine main (applyDocumentUpsert d
        (HistoryTracker.trackDocumentHistory d { st with track := tr }).2) ?_ h.symm
      rw [show (applyDocumentUpsert d
            (HistoryTracker.trackDocumentHistory d { st with track := tr }).2).track
          = (HistoryTracker.trackDocumentHistory d { st with track := tr }).2.track from rfl,
        HistoryTracker.trackDocumentHistory_track]
      exact htr.symm

end MeetingDataIngestor

namespace MeetingDataIngestor

theorem processDocs_frame (fail : Document → Bool) (data : Json) :
    ∀ (l : List Document) (st st' : St),
      processDocs fail data l st = .ok st' →
      (∀ d' ∈ l, (transcriptEntriesFor data d'.id).Pairwise (fun a b => a.id ≠ b.id)) →
      ∀ k, (∀ d' ∈ l, k ≠ d'.id) →
        lookupA st'.track.documentHashes k = lookupA st.track.documentHashes k
        ∧ lookupA st'.track.calendarHashes k = lookupA st.track.calendarHashes k
        ∧ lookupA st'.track.transcriptHashes k = lookupA st.track.transcriptHashes k := by
  intro l
  induction l with
  | nil =>
    intro st st' h _ k _
    simp only [processDocs, Except.ok.injEq] at h
    subst h
    exact ⟨rfl, rfl, rfl⟩
  | cons x xs ih =>
    intro st st' h hent k hk
    rw [processDocs] at h
    cases hx : processDoc fail data x st with
    | error e =>
      rw [hx] at h
      exact absurd h (by simp)
    | ok st1 =>
      rw [hx] at h
      obtain ⟨f1, f2, f3⟩ := (processDoc_track_effect fail data x st st1
        (hent x (by simp)) hx).2 k (hk x (by simp))
      obtain ⟨g1, g2, g3⟩ := ih st1 st' h (fun d' hd' => hent d' (by simp [hd']))
        k (fun d' hd' => hk d' (by simp [hd']))
      exact ⟨g1.trans f1, g2.trans f2, g3.trans f3⟩

theorem processDocs_establish (fail : Document → Bool) (data : Json) :
    ∀ (l : List Document) (st st' : St),
      processDocs fail data l st = .ok st' →
      l.Pairwise (fun a b => a.id ≠ b.id) →
      (∀ d ∈ l, (transcriptEntriesFor data d.id).Pairwise (fun a b => a.id ≠ b.id)) →
      ∀ d ∈ l, trackedDoc data d st'.track := by
  intro l
  induction l with
  | nil =>
    intro st st' _ _ _ d hd
    exact absurd hd (List.not_mem_nil d)
  | cons x xs ih =>
    intro st st' h hpw hent d hd
    have hpwc := List.pairwise_cons.mp hpw
    rw [processDocs] at h
    cases hx : processDoc fail data x st with
    | error e =>
      rw [hx] at h
      exact absurd h (by simp)
    | ok st1 =>
      rw [hx] at h
      rcases List.mem_cons.mp hd with hdx | hdxs
      · subst hdx
        have hest := (processDoc_track_effect fail data d st st1 (hent d (by simp)) hx).1
        obtain ⟨f1, f2, f3⟩ := processDocs_frame fail data xs st1 st' h
          (fun d' hd' => hent d' (by simp [hd'])) d.id
          (fun d' hd' => hpwc.1 d' hd')
        exact trackedDoc_of_frame data d st1.track st'.track hest f1 f2 f3
      · exact ih st1 st' h hpwc.2 (fun d' hd' => hent d' (by simp [hd'])) d hdxs

theorem processDocs_quiet_list (fail : Document → Bool) (data : Json) :
    ∀ (l : List Document) (st : St),
      (∀ d ∈ l, trackedDoc data d st.track) →
      ∃ st', processDocs fail data l st = .ok st' ∧ QuietExt st st' := by
  intro l
  induction l with
  | nil =>
    intro st _
    exact ⟨st, rfl, QuietExt.rfl st⟩
  | cons x xs ih =>
    intro st hinv
    have hx := processDoc_quiet fail data x st (hinv x (by simp))
    have hqH : QuietExt st (processTemplates data x.id st) := processTemplates_quiet data x.id st
    have hinv' : ∀ d ∈ xs, trackedDoc data d (processTemplates data x.id st).track := by
      intro d hd
      rw [hqH.1]
      exact hinv d (by simp [hd])
    obtain ⟨st', h', hq'⟩ := ih (processTemplates data x.id st) hinv'
    refine ⟨st', ?_, QuietExt.trans hqH hq'⟩
    rw [processDocs, hx]
    exact h'

theorem processDoc_noFail_ok (data : Json) (d : Document) (st : St) :
    ∃ st', processDoc noFail data d st = .ok st' := by
  unfold processDoc
  split
  rename_i changed tr heq
  cases changed with
  | false => exact ⟨_, rfl⟩
  | true => exact ⟨_, rfl⟩

theorem processDocs_noFail_ok (data : Json) :
    ∀ (l : List Document) (st : St), ∃ st', processDocs noFail data l st = .ok st' := by
  intro l
  induction l with
  | nil => intro st; exact ⟨st, rfl⟩
  | cons x xs ih =>
    intro st
    obtain ⟨st1, h1⟩ := processDoc_noFail_ok data x st
    obtain ⟨st', h'⟩ := ih st1
    refine ⟨st', ?_⟩
    rw [processDocs, h1]
    exact h'

theorem processDocs_append (fail : Document → Bool) (data : Json) :
    ∀ (l1 l2 : List Document) (st st1 : St),
      processDocs fail data l1 st = .ok st1 →
      processDocs fail data (l1 ++ l2) st = processDocs fail data l2 st1 := by
  intro l1
  induction l1 with
  | nil =>
    intro l2 st st1 h
    simp only [processDocs, Except.ok.injEq] at h
    subst h
    rfl
  | cons x xs ih =>
    intro l2 st st1 h
    rw [processDocs] at h
    cases hx : processDoc fail data x st with
    | error e =>
      rw [hx] at h
      exact absurd h (by simp)
    | ok stx =>
      rw [hx] at h
      rw [List.cons_append, processDocs, hx]
      exact ih l2 stx st1 h

theorem processDocs_append_error (fail : Document → Bool) (data : Json) :
    ∀ (l1 l2 : List Document) (st : St) (e : IngestError × St),
      processDocs fail data l1 st = .error e →
      processDocs fail data (l1 ++ l2) st = .error e := by
  intro l1
  induction l1 with
  | nil =>
    intro l2 st e h
    exact absurd h (by simp [processDocs])
  | cons x xs ih =>
    intro l2 st e h
    rw [processDocs] at h
    rw [List.cons_append, processDocs]
    cases hx : processDoc fail data x st with
    | error e' =>
      rw [hx] at h
      rw [h]
    | ok stx =>
      rw [hx] at h
      exact ih l2 stx e h

theorem processChunks_ok_of_docs (fail : Document → Bool) (data : Json) :
    ∀ (cs : List (List Document)) (st st' : St),
      processDocs fail data cs.flatten st = .ok st' →
      processChunks fail data cs st = (st', none) := by
  intro cs
  induction cs with
  | nil =>
    intro st st' h
    simp only [List.flatten_nil, processDocs, Except.ok.injEq] at h
    subst h
    rfl
  | cons c cs ih =>
    intro st st' h
    rw [List.flatten_cons] at h
    cases hc : processDocs fail data c st with
    | error e =>
      rw [processDocs_append_error fail data c cs.flatten st e hc] at h
      exact absurd h (by simp)
    | ok st1 =>
      have happ := processDocs_append fail data c cs.flatten st st1 hc
      rw [happ] at h
      rw [processChunks, processChunk, hc]
      exact ih st1 st' h

end MeetingDataIngestor

open MeetingDataIngestor in
/-- Amended C3: re-ingesting an identical snapshot (with the natural
snapshot well-formedness conditions: distinct document ids, and distinct
transcript-entry ids per document) is a no-op for every entity class
except template artifacts — both runs succeed and the second run leaves
the fingerprint store identical, issues zero further document, calendar,
person and transcript upsert calls, and appends zero historical records
(`QuietExt`).  Template artifacts are excluded because the pipeline
upserts them unconditionally on every ingestion. -/
theorem reingestion_idempotent_outside_templates (data : Json) (docs : List Document)
    (st0 : St)
    (hids : docs.Pairwise (fun a b => a.id ≠ b.id))
    (hent : ∀ d ∈ docs,
      (transcriptEntriesFor data d.id).Pairwise (fun a b => a.id ≠ b.id)) :
    (processCacheDocs noFail data docs st0).2 = none
    ∧ (processCacheDocs noFail data docs (processCacheDocs noFail data docs st0).1).2 = none
    ∧ QuietExt (processCacheDocs noFail data docs st0).1
        (processCacheDocs noFail data docs (processCacheDocs noFail data docs st0).1).1 := by
  obtain ⟨st1, h1⟩ := processDocs_noFail_ok data docs st0
  have hc1 : processCacheDocs noFail data docs st0 = (st1, none) := by
    unfold processCacheDocs
    refine processChunks_ok_of_docs noFail data (chunkList docs) st0 st1 ?_
    rw [chunkList_flatten]
    exact h1
  have hinv : ∀ d ∈ docs, trackedDoc data d st1.track :=
    processDocs_establish noFail data docs st0 st1 h1 hids hent
  obtain ⟨st2, h2, hq⟩ := processDocs_quiet_list noFail data docs st1 hinv
  have hc2 : processCacheDocs noFail data docs st1 = (st2, none) := by
    unfold processCacheDocs
    refine processChunks_ok_of_docs noFail data (chunkList docs) st1 st2 ?_
    rw [chunkList_flatten]
    exact h2
  rw [hc1]
  rw [show ((st1, (none : Option IngestError)).1) = st1 from rfl, hc2]
  exact ⟨rfl, rfl, hq⟩

/-- Witness for the amended C3: the two-document sample snapshot (with a
calendar-event-free document and its changed twin under a distinct id)
re-ingests quietly. -/
theorem reingestion_idempotent_witness :
    (MeetingDataIngestor.processCacheDocs noFail Json.null
        [exDoc1, { exDoc2 with id := "doc-456" }] St.init).2 = none
    ∧ (MeetingDataIngestor.processCacheDocs noFail Json.null
        [exDoc1, { exDoc2 with id := "doc-456" }]
        (MeetingDataIngestor.processCacheDocs noFail Json.null
          [exDoc1, { exDoc2 with id := "doc-456" }] St.init).1).2 = none
    ∧ QuietExt
        (MeetingDataIngestor.processCacheDocs noFail Json.null
          [exDoc1, { exDoc2 with id := "doc-456" }] St.init).1
        (MeetingDataIngestor.processCacheDocs noFail Json.null
          [exDoc1, { exDoc2 with id := "doc-456" }]
          (MeetingDataIngestor.processCacheDocs noFail Json.null
            [exDoc1, { exDoc2 with id := "doc-456" }] St.init).1).1 :=
  reingestion_idempotent_outside_templates Json.null
    [exDoc1, { exDoc2 with id := "doc-456" }] St.init
    (by decide)
    (by intro d _; simp [MeetingDataIngestor.transcriptEntriesFor,
          MeetingDataIngestor.transcriptsVal, getField])

/-- Snapshot carrying the sample document plus one panel template in its
`state.templates` side table. -/
def exSnapT : Json :=
  mkSnapshot (Json.arr [docJson exDoc1]) Json.null
    (Json.obj [("doc-123", Json.obj [("panel_templates",
      Json.arr [Json.obj [("id", Json.str "tmpl-1"), ("category", Json.str "meeting"),
                          ("title", Json.str "Notes"), ("is_granola", Json.bool true)]])])])

/-- First ingestion of the template-bearing snapshot. -/
def exRunT1 : St := (MeetingDataIngestor.processCache noFail exSnapT St.init).1

/-- Identical re-ingestion of the template-bearing snapshot. -/
def exRunT2 : St := (MeetingDataIngestor.processCache noFail exSnapT exRunT1).1

set_option maxRecDepth 100000 in
/-- Counterexample to C3: re-ingesting an identical snapshot that carries
a template artifact issues a second panel-template upsert call (no change
detection guards templates), so the upsert-call counts are not unchanged —
while the historical table indeed stays untouched. -/
theorem reingestion_template_counterexample :
    exRunT1.counts.panel_templates = 1
    ∧ exRunT2.counts.panel_templates = 2
    ∧ ¬ (exRunT2.counts = exRunT1.counts)
    ∧ exRunT2.db.historical_documents = exRunT1.db.historical_documents := by
  decide

end GranolaIngest
